/-
  Verification development for the sb-live-lapse batch job
  (src/replot_recent60_sba.py).

  Shallow embedding conventions:
  * Python floats are modelled as exact rationals (ℚ); Python ints as ℤ/ℕ.
  * A Python function that can raise is modelled as returning an Option,
    with `none` standing for the raised exception.
  * Mutable dict rows are modelled as a fixed-schema structure
    (`Row`), updated functionally.
  * Network fetches are modelled by passing the (optional) response as an
    argument; `none` models a fetch or XML-parse failure.
  * Raw text input to the RASS parser is modelled as its list of lines
    (the result of Python `str.splitlines`).
  * `datetime` values are modelled as a civil (year, month, day, hour,
    minute, second) record in UTC together with an epoch-seconds view.
-/
import Mathlib

set_option maxRecDepth 16384

/-! ### Python string primitives used by the source -/

/-- Accumulator pass of `pySplit`: collect maximal nonempty runs of
non-whitespace characters. -/
def splitWSGo : List Char → List Char → List String
  | [], acc => if acc.isEmpty then [] else [String.mk acc.reverse]
  | c :: cs, acc =>
    if c.isWhitespace then
      if acc.isEmpty then splitWSGo cs []
      else String.mk acc.reverse :: splitWSGo cs []
    else splitWSGo cs (c :: acc)

/-- Python `str.split()` with no arguments: split on whitespace runs,
dropping empty pieces. -/
def pySplit (s : String) : List String :=
  splitWSGo s.toList []

/-- Python `str.strip()` with no arguments: remove leading and trailing
whitespace. -/
def pyStrip (s : String) : String :=
  String.mk (((s.toList.dropWhile Char.isWhitespace).reverse.dropWhile
    Char.isWhitespace).reverse)

/-- Python `str.startswith`. -/
def pyStartsWith (pre s : String) : Bool :=
  decide (s.toList.take pre.toList.length = pre.toList)

/-- Lexicographic comparison of character lists by code point
(Python string `<`). -/
def charListLt : List Char → List Char → Bool
  | [], [] => false
  | [], _ :: _ => true
  | _ :: _, [] => false
  | a :: as, b :: bs =>
      if a.toNat < b.toNat then true
      else if b.toNat < a.toNat then false
      else charListLt as bs

/-- Lexicographic `≤` of character lists by code point. -/
def charListLe : List Char → List Char → Bool
  | [], _ => true
  | _ :: _, [] => false
  | a :: as, b :: bs =>
      if a.toNat < b.toNat then true
      else if b.toNat < a.toNat then false
      else charListLe as bs

/-- Python string `<` (strict lexicographic order by code point). -/
def pyStrLt (a b : String) : Bool := charListLt a.toList b.toList

/-- Python string `<=` (lexicographic order by code point). -/
def pyStrLe (a b : String) : Bool := charListLe a.toList b.toList

/-- Python `str.isdigit()` restricted to ASCII digits (the only digits the
data feeds carry): nonempty and all characters are digits. -/
def pyIsdigit (s : String) : Bool :=
  s ≠ "" && s.toList.all Char.isDigit

/-- Python `s.replace(".", "", 1)`: remove the first dot, if any. -/
def removeFirstDot (s : String) : String :=
  match s.toList.span (fun c => c ≠ '.') with
  | (pre, []) => String.mk pre
  | (pre, _ :: post) => String.mk (pre ++ post)

/-- Python `str.zfill` on the unsigned digit strings it is applied to in the
source (tokens already guarded by `isdigit` checks): left-pad with zeros. -/
def zfill (w : ℕ) (s : String) : String :=
  if s.length < w then String.mk (List.replicate (w - s.length) '0') ++ s else s

/-- Value of a list of ASCII digit characters, most significant first. -/
def digitsVal (cs : List Char) : ℕ :=
  cs.foldl (fun a c => 10 * a + (c.toNat - 48)) 0

/-- Python `float()` on the plain decimal literals the data feeds carry:
optional sign, digits with at most one dot (`"12"`, `"12."`, `".5"`,
`"-3.25"`).  Exotic accepted forms (exponents, `inf`, `nan`, underscores)
are outside the model; on such strings the model returns `none` like any
other unparsable token. -/
def pyFloat? (s : String) : Option ℚ :=
  let withSign : ℚ × List Char :=
    match s.toList with
    | '+' :: rest => (1, rest)
    | '-' :: rest => (-1, rest)
    | cs => (1, cs)
  let sign := withSign.1
  let cs := withSign.2
  let ip := cs.takeWhile Char.isDigit
  let rest := cs.dropWhile Char.isDigit
  match rest with
  | [] => if ip = [] then none else some (sign * digitsVal ip)
  | '.' :: frac =>
      if frac.all Char.isDigit ∧ (ip ≠ [] ∨ frac ≠ []) then
        some (sign * ((digitsVal ip : ℚ) + (digitsVal frac : ℚ) / (10 : ℚ) ^ frac.length))
      else none
  | _ => none

/-- Number of positions at which `needle` occurs as a contiguous sub-list
of `hay`. -/
def occList (needle hay : List Char) : ℕ :=
  ((List.range (hay.length + 1)).filter
    (fun p => (hay.drop p).take needle.length = needle)).length

/-- Python `needle in hay` substring test (for nonempty needles). -/
def pyContains (needle hay : String) : Bool :=
  decide (0 < occList needle.toList hay.toList)

/-! ### Civil datetime model (UTC) -/

/-- A UTC civil timestamp, as produced by Python `datetime` values that the
job constructs (whole seconds; the feeds it reads carry no sub-second
precision). -/
structure DateTimeUTC where
  year : ℕ
  month : ℕ
  day : ℕ
  hour : ℕ
  minute : ℕ
  second : ℕ
deriving DecidableEq, Repr

def isLeap (y : ℕ) : Bool :=
  (y % 4 = 0 && y % 100 ≠ 0) || y % 400 = 0

def daysInMonth (y m : ℕ) : ℕ :=
  if m = 2 then (if isLeap y then 29 else 28)
  else if m = 4 ∨ m = 6 ∨ m = 9 ∨ m = 11 then 30
  else 31

/-- The range checks `datetime` itself performs on construction. -/
def validDT (dt : DateTimeUTC) : Bool :=
  1 ≤ dt.year && dt.year ≤ 9999 && 1 ≤ dt.month && dt.month ≤ 12 &&
  1 ≤ dt.day && dt.day ≤ daysInMonth dt.year dt.month &&
  dt.hour ≤ 23 && dt.minute ≤ 59 && dt.second ≤ 59

/-- Days from 1970-01-01 to the given civil date (Hinnant's algorithm, the
standard civil-calendar day count used by every datetime library). -/
def daysFromCivil (y0 : ℤ) (m d : ℕ) : ℤ :=
  let y : ℤ := if m ≤ 2 then y0 - 1 else y0
  let era : ℤ := Int.fdiv y 400
  let yoe : ℕ := (y - era * 400).toNat
  let doy : ℕ := (153 * (if 2 < m then m - 3 else m + 9) + 2) / 5 + d - 1
  let doe : ℕ := yoe * 365 + yoe / 4 - yoe / 100 + doy
  era * 146097 + (doe : ℤ) - 719468

/-- Seconds since the Unix epoch of a UTC civil timestamp
(`timestamp`-style view used to model `datetime` subtraction). -/
def toEpoch (dt : DateTimeUTC) : ℤ :=
  daysFromCivil (dt.year : ℤ) dt.month dt.day * 86400 +
    dt.hour * 3600 + dt.minute * 60 + dt.second

/-- The `normalized.replace("Z", "+00:00")` step of `parse_iso_utc`
(character-wise expansion of every `Z`). -/
def replaceZ (cs : List Char) : List Char :=
  (cs.map (fun c => if c = 'Z' then "+00:00".toList else [c])).flatten

def readDigit2 (cs : List Char) : Option (ℕ × List Char) :=
  match cs with
  | a :: b :: rest =>
      if a.isDigit && b.isDigit then
        some (10 * (a.toNat - 48) + (b.toNat - 48), rest)
      else none
  | _ => none

def readDigit4 (cs : List Char) : Option (ℕ × List Char) :=
  match readDigit2 cs with
  | some (hi, rest) =>
      match readDigit2 rest with
      | some (lo, rest') => some (100 * hi + lo, rest')
      | none => none
  | none => none

/-- Trailing time-of-day part of `datetime.fromisoformat`:
`HH`, `HH:MM` or `HH:MM:SS`, optionally followed by the `+00:00` offset
(the only offset the job ever produces; `Z` has already been expanded to
it).  Fractional seconds and non-UTC offsets are outside the model and
yield `none` like any other unparsable string. -/
def readTime (cs : List Char) : Option (ℕ × ℕ × ℕ) :=
  match readDigit2 cs with
  | none => none
  | some (h, rest) =>
    match rest with
    | [] => some (h, 0, 0)
    | ':' :: rest' =>
      match readDigit2 rest' with
      | none => none
      | some (mi, rest'') =>
        match rest'' with
        | [] => some (h, mi, 0)
        | ':' :: rest''' =>
          match readDigit2 rest''' with
          | none => none
          | some (s, tail) =>
              if tail = [] ∨ tail = "+00:00".toList then some (h, mi, s) else none
        | tail => if tail = "+00:00".toList then some (h, mi, 0) else none
    | tail => if tail = "+00:00".toList then some (h, 0, 0) else none

/-- `datetime.fromisoformat` (pre-3.11 behaviour, as on the deployment
interpreter): a strict `YYYY-MM-DD` date, then optionally one arbitrary
separator character and a time of day. -/
def pyFromIso (cs : List Char) : Option DateTimeUTC :=
  match readDigit4 cs with
  | none => none
  | some (y, r1) =>
    match r1 with
    | '-' :: r2 =>
      match readDigit2 r2 with
      | none => none
      | some (mo, r3) =>
        match r3 with
        | '-' :: r4 =>
          match readDigit2 r4 with
          | none => none
          | some (d, r5) =>
            let mk := fun (h mi s : ℕ) =>
              let dt : DateTimeUTC := ⟨y, mo, d, h, mi, s⟩
              if validDT dt then some dt else none
            match r5 with
            | [] => mk 0 0 0
            | _ :: r6 =>
              match readTime r6 with
              | some (h, mi, s) => mk h mi s
              | none => none
        | _ => none
    | _ => none

/-- `parse_iso_utc` (src lines 303-315): falsy inputs give `None`, the input
is stripped, `Z` is rewritten to `+00:00`, and `fromisoformat` is applied;
parse failures give `None`.  Naive results are taken as UTC and `+00:00`
results are already UTC, so both map to the same civil record. -/
def parse_iso_utc (iso_time : Option String) : Option DateTimeUTC :=
  match iso_time with
  | none => none
  | some s =>
      if s = "" then none
      else
        let n := pyStrip s
        if n = "" then none else pyFromIso (replaceZ n.toList)

/-! ### Station rows and the reconciliation engine -/

/-- The fixed station roster (`STATIONS`, src line 16). -/
def STATIONS : List String :=
  ["KC6OYN", "SE068", "SE234", "MTIC1", "MPWC1", "421SE", "SE053", "KSBA"]

/-- `STATION_NAMES` (src lines 17-26). -/
def STATION_NAMES (id : String) : Option String :=
  if id = "KC6OYN" then some "La Cumbre"
  else if id = "SE068" then some "VOR"
  else if id = "SE234" then some "AntFarm"
  else if id = "MTIC1" then some "Montecito"
  else if id = "MPWC1" then some "SM Pass"
  else if id = "421SE" then some "Parma"
  else if id = "SE053" then some "Romero Cyn"
  else if id = "KSBA" then some "Airport"
  else none

/-- A station observation row (the ad-hoc dict built by `fetch_station` /
`blank_station_row`, plus the derived `recent` / `age_min` keys added by
`update_age_and_recency`; before that call Python's `row.get("recent")`
returns the falsy `None`, modelled by the `false` / `none` defaults). -/
structure Row where
  id : String
  name : String
  elev_m : Option ℚ := none
  temp_c : Option ℚ := none
  dew_c : Option ℚ := none
  temp_ob_time : Option String := none
  provider : Option String := none
  wind_dir : Option ℚ := none
  wind_spd_mps : Option ℚ := none
  wind_gust_mps : Option ℚ := none
  wind_ob_time : Option String := none
  recent : Bool := false
  age_min : Option ℚ := none
deriving DecidableEq, Repr

/-- `blank_station_row` (src lines 327-340). -/
def blank_station_row (station_id : String) : Row :=
  { id := station_id, name := (STATION_NAMES station_id).getD station_id }

/-- `update_age_and_recency` (src lines 400-406), with the reference time
`now_utc` given in epoch seconds. -/
def update_age_and_recency (row : Row) (now : ℚ) : Row :=
  match parse_iso_utc row.temp_ob_time with
  | none => { row with recent := false, age_min := none }
  | some dt =>
      let age : ℚ := (now - (toEpoch dt : ℚ)) / 60
      { row with age_min := some age, recent := decide (age ≤ 60) }

/-- Python `x or y` on an optional string (`None` and `""` are falsy). -/
def orStr (a : Option String) (b : String) : String :=
  match a with
  | some s => if s = "" then b else s
  | none => b

/-- `merge_cwop_if_needed` (src lines 413-428). -/
def merge_cwop_if_needed (madis_row cwop_row : Row) : Row :=
  if cwop_row.temp_c = none then madis_row
  else if madis_row.temp_c ≠ none ∧ madis_row.recent then madis_row
  else
    let merged := madis_row
    let merged := if cwop_row.temp_c ≠ none then { merged with temp_c := cwop_row.temp_c } else merged
    let merged := if cwop_row.dew_c ≠ none then { merged with dew_c := cwop_row.dew_c } else merged
    let merged := if cwop_row.temp_ob_time ≠ none then { merged with temp_ob_time := cwop_row.temp_ob_time } else merged
    let merged := if cwop_row.wind_dir ≠ none then { merged with wind_dir := cwop_row.wind_dir } else merged
    let merged := if cwop_row.wind_spd_mps ≠ none then { merged with wind_spd_mps := cwop_row.wind_spd_mps } else merged
    let merged := if cwop_row.wind_gust_mps ≠ none then { merged with wind_gust_mps := cwop_row.wind_gust_mps } else merged
    let merged := if cwop_row.wind_ob_time ≠ none then { merged with wind_ob_time := cwop_row.wind_ob_time } else merged
    let merged := if merged.elev_m = none ∧ cwop_row.elev_m ≠ none then { merged with elev_m := cwop_row.elev_m } else merged
    let merged := if cwop_row.temp_ob_time ≠ none then { merged with provider := some (orStr cwop_row.provider "CWOP-findU") } else merged
    merged

/-- `age_minutes` (src lines 697-701). -/
def age_minutes (iso_time : Option String) (now : ℚ) : Option ℚ :=
  match parse_iso_utc iso_time with
  | none => none
  | some dt => some ((now - (toEpoch dt : ℚ)) / 60)

/-- `LAST_GOOD_GRACE_MIN` (src line 50). -/
def LAST_GOOD_GRACE_MIN : ℚ := 90

/-- `within_grace` (src lines 704-706). -/
def within_grace (iso_time : Option String) (now : ℚ) : Bool :=
  match age_minutes iso_time now with
  | none => false
  | some a => decide (a ≤ LAST_GOOD_GRACE_MIN)

/-- Unconditional elevation fallback of `apply_last_good_fallback`
(src lines 713-714); it does not set `used_cache`. -/
def fillElev (merged cached : Row) : Row :=
  if merged.elev_m = none ∧ cached.elev_m ≠ none then
    { merged with elev_m := cached.elev_m } else merged

/-- Temperature fill of `apply_last_good_fallback` (src lines 719-722);
the second component is whether this branch fired (`used_cache`). -/
def fillTemp (merged cached : Row) (tempOk : Bool) : Row × Bool :=
  if merged.temp_c = none ∧ tempOk = true ∧ cached.temp_c ≠ none then
    ({ merged with temp_c := cached.temp_c, temp_ob_time := cached.temp_ob_time }, true)
  else (merged, false)

/-- Dewpoint fill of `apply_last_good_fallback` (src lines 723-725). -/
def fillDew (merged cached : Row) (tempOk : Bool) : Row × Bool :=
  if merged.dew_c = none ∧ tempOk = true ∧ cached.dew_c ≠ none then
    ({ merged with dew_c := cached.dew_c }, true)
  else (merged, false)

/-- Wind-speed fill of `apply_last_good_fallback` (src lines 726-729);
note the wind observation time is overwritten unconditionally here. -/
def fillSpd (merged cached : Row) (windOk : Bool) : Row × Bool :=
  if merged.wind_spd_mps = none ∧ windOk = true ∧ cached.wind_spd_mps ≠ none then
    ({ merged with wind_spd_mps := cached.wind_spd_mps, wind_ob_time := cached.wind_ob_time }, true)
  else (merged, false)

/-- Wind-gust fill of `apply_last_good_fallback` (src lines 730-734);
the wind observation time is adopted only if currently absent. -/
def fillGust (merged cached : Row) (windOk : Bool) : Row × Bool :=
  if merged.wind_gust_mps = none ∧ windOk = true ∧ cached.wind_gust_mps ≠ none then
    let ob := if merged.wind_ob_time = none then cached.wind_ob_time else merged.wind_ob_time
    ({ merged with wind_gust_mps := cached.wind_gust_mps, wind_ob_time := ob }, true)
  else (merged, false)

/-- Wind-direction fill of `apply_last_good_fallback` (src lines 735-739). -/
def fillDir (merged cached : Row) (windOk : Bool) : Row × Bool :=
  if merged.wind_dir = none ∧ windOk = true ∧ cached.wind_dir ≠ none then
    let ob := if merged.wind_ob_time = none then cached.wind_ob_time else merged.wind_ob_time
    ({ merged with wind_dir := cached.wind_dir, wind_ob_time := ob }, true)
  else (merged, false)

/-- The provenance tag appended by the cache fallback. -/
def lastGoodTag : String := "(last-good)"

/-- `apply_last_good_fallback` (src lines 709-745). -/
def apply_last_good_fallback (current_row cached_row : Row) (now : ℚ) : Row :=
  let merged := fillElev current_row cached_row
  let temp_cache_ok := within_grace cached_row.temp_ob_time now
  let wind_cache_ok := within_grace cached_row.wind_ob_time now
  let s1 := fillTemp merged cached_row temp_cache_ok
  let s2 := fillDew s1.1 cached_row temp_cache_ok
  let s3 := fillSpd s2.1 cached_row wind_cache_ok
  let s4 := fillGust s3.1 cached_row wind_cache_ok
  let s5 := fillDir s4.1 cached_row wind_cache_ok
  let merged := s5.1
  let used_cache := s1.2 || s2.2 || s3.2 || s4.2 || s5.2
  if used_cache then
    let base := orStr merged.provider (orStr cached_row.provider "cache")
    if pyContains lastGoodTag base then merged
    else { merged with provider := some (base ++ " " ++ lastGoodTag) }
  else merged

/-! ### Primary-feed fetch (`fetch_station`) -/

/-- One `record` element of the MADIS XML response (src § 6 interface):
the attributes `fetch_station` reads.  Absent attributes are `none`;
`provider` defaults to `""` via `attrib.get("provider", "")`. -/
structure MadisRecord where
  var : Option String := none
  obTime : Option String := none
  dataValue : Option String := none
  provider : Option String := none
  elev : Option String := none
deriving DecidableEq, Repr

/-- The `latest` dict of `fetch_station`, keyed by the five accepted
variable codes. -/
structure LatestVars where
  vT : Option (String × ℚ × String) := none
  vTD : Option (String × ℚ × String) := none
  vDD : Option (String × ℚ × String) := none
  vFF : Option (String × ℚ × String) := none
  vFFGUST : Option (String × ℚ × String) := none
deriving DecidableEq, Repr

/-- `prev is None or ob_time > prev[0]` update of one `latest` slot
(src lines 259-261); Python compares the timestamp strings. -/
def updateSlot (slot : Option (String × ℚ × String)) (ob : String) (val : ℚ)
    (prov : String) : Option (String × ℚ × String) :=
  match slot with
  | none => some (ob, val, prov)
  | some prev => if pyStrLt prev.1 ob then some (ob, val, prov) else slot

/-- The record loop body of `fetch_station` (src lines 235-261), folded
over the records; the second accumulator component is `any_elev`. -/
def latestStep (acc : LatestVars × Option ℚ) (rec : MadisRecord) :
    LatestVars × Option ℚ :=
  let latest := acc.1
  let anyElev := acc.2
  match rec.var with
  | none => acc
  | some v =>
    if v = "V-T" ∨ v = "V-TD" ∨ v = "V-DD" ∨ v = "V-FF" ∨ v = "V-FFGUST" then
      let anyElev :=
        match anyElev, rec.elev with
        | none, some e => if e ≠ "" then pyFloat? e else none
        | a, _ => a
      let ob := rec.obTime.getD ""
      let vs := rec.dataValue.getD ""
      if ob = "" ∨ vs = "" then (latest, anyElev)
      else
        match pyFloat? vs with
        | none => (latest, anyElev)
        | some val =>
          let prov := rec.provider.getD ""
          let latest :=
            if v = "V-T" then { latest with vT := updateSlot latest.vT ob val prov }
            else if v = "V-TD" then { latest with vTD := updateSlot latest.vTD ob val prov }
            else if v = "V-DD" then { latest with vDD := updateSlot latest.vDD ob val prov }
            else if v = "V-FF" then { latest with vFF := updateSlot latest.vFF ob val prov }
            else { latest with vFFGUST := updateSlot latest.vFFGUST ob val prov }
          (latest, anyElev)
    else acc

/-- `out["wind_ob_time"] is None or t > out["wind_ob_time"]` merge
(src lines 280-281 and 285-286). -/
def laterOb (cur : Option String) (t : String) : Option String :=
  match cur with
  | none => some t
  | some w => if pyStrLt w t then some t else some w

/-- `fetch_station` (src lines 193-288).  The HTTP response is passed as an
argument: `none` models `fetch_text` raising or `ET.fromstring` failing, in
which case the except-branch returns the initial blank row; `some recs`
models a parsed XML document with the given `record` elements. -/
def fetch_station (station_id : String) (response : Option (List MadisRecord)) : Row :=
  let out := blank_station_row station_id
  match response with
  | none => out
  | some recs =>
    let folded := recs.foldl latestStep ({}, none)
    let latest := folded.1
    let out := { out with elev_m := folded.2 }
    let out :=
      match latest.vT with
      | some s => { out with temp_c := some (s.2.1 - 273.15), temp_ob_time := some s.1, provider := some s.2.2 }
      | none => out
    let out :=
      match latest.vTD with
      | some s => { out with dew_c := some (s.2.1 - 273.15) }
      | none => out
    let out :=
      match latest.vDD with
      | some s => { out with wind_dir := some s.2.1, wind_ob_time := some s.1 }
      | none => out
    let out :=
      match latest.vFF with
      | some s => { out with wind_spd_mps := some s.2.1, wind_ob_time := laterOb out.wind_ob_time s.1 }
      | none => out
    let out :=
      match latest.vFFGUST with
      | some s => { out with wind_gust_mps := some s.2.1, wind_ob_time := laterOb out.wind_ob_time s.1 }
      | none => out
    out

/-! ### Wind barb glyphs -/

/-- `KTS_PER_MPS` (src line 44). -/
def KTS_PER_MPS : ℚ := 1.94384

/-- Python `round` (round-half-to-even) on an exact rational. -/
def pyRound (x : ℚ) : ℤ :=
  let f := ⌊x⌋
  let frac := x - f
  if frac < 1 / 2 then f
  else if 1 / 2 < frac then f + 1
  else if f % 2 = 0 then f else f + 1

/-- The glyphs `wind_barb_svg` emits.  The trigonometric pixel coordinates
of the emitted SVG text depend only on the barb direction and glyph index
and carry no information about the speed decomposition; they are not
modelled. -/
inductive Glyph where
  | calm
  | shaft
  | flag
  | feather
  | half
deriving DecidableEq, Repr

/-- The `while remaining >= 50` flag loop (src lines 923-935):
returns the number of iterations and the remaining speed. -/
def consume50 (rem : ℕ) : ℕ × ℕ :=
  if h : 50 ≤ rem then
    let p := consume50 (rem - 50)
    (p.1 + 1, p.2)
  else (0, rem)

/-- The `while remaining >= 10` feather loop (src lines 937-944). -/
def consume10 (rem : ℕ) : ℕ × ℕ :=
  if h : 10 ≤ rem then
    let p := consume10 (rem - 10)
    (p.1 + 1, p.2)
  else (0, rem)

/-- `wind_barb_svg` (src lines 897-953), at glyph level: missing direction
or speed yields no glyphs; a rounded speed of zero yields the calm circle;
otherwise a shaft followed by flags (50 kt), feathers (10 kt) and at most
one half feather (5 kt). -/
def wind_barb_svg (wind_dir_deg wind_spd_mps : Option ℚ) : List Glyph :=
  match wind_dir_deg, wind_spd_mps with
  | some _, some spd =>
    let speed_kt : ℚ := max 0 (spd * KTS_PER_MPS)
    let barb_speed : ℤ := 5 * pyRound (speed_kt / 5)
    if barb_speed ≤ 0 then [Glyph.calm]
    else
      let rem0 := barb_speed.toNat
      let p1 := consume50 rem0
      let p2 := consume10 p1.2
      Glyph.shaft :: (List.replicate p1.1 Glyph.flag ++ List.replicate p2.1 Glyph.feather ++
        (if 5 ≤ p2.2 then [Glyph.half] else []))
  | _, _ => []

/-! ### Renderer fragments used by the claims -/

/-- The `anchor_alt, anchor_temp = rass_points[0]` read at the top of
`draw_svg` (src line 1001): `none` models the `IndexError` raised on an
empty resampled profile. -/
def draw_svg_anchor (rass_points : List (ℚ × ℚ)) : Option (ℚ × ℚ) :=
  rass_points.head?

/-- Minimum of a nonempty collection given as seed plus list
(Python `min([a, ...] + rest)`). -/
def listMin (x : ℚ) (xs : List ℚ) : ℚ := xs.foldl min x

/-- Maximum of a nonempty collection given as seed plus list. -/
def listMax (x : ℚ) (xs : List ℚ) : ℚ := xs.foldl max x

/-- The altitude-domain computation of `draw_svg` (src lines 1006-1010):
`station_alts` are the elevations present among the plotted stations;
with at least one such elevation the bounds round outward to multiples of
100 over `min(0, first profile altitude, elevations)` and
`max(last profile altitude, elevations)`; otherwise they are `0` and the
raw last profile altitude; finally `y_max <= y_min` bumps `y_max`. -/
def draw_svg_y_domain (rass_points : List (ℚ × ℚ)) (stations_recent : List Row) :
    ℚ × ℚ :=
  let station_alts := stations_recent.filterMap (fun s => s.elev_m)
  let y_min : ℚ :=
    if station_alts ≠ [] then
      ((⌊listMin 0 ((rass_points.headD (0, 0)).1 :: station_alts) / 100⌋ * 100 : ℤ) : ℚ)
    else 0
  let y_max : ℚ :=
    if station_alts ≠ [] then
      ((⌈listMax (rass_points.getLastD (0, 0)).1 station_alts / 100⌉ * 100 : ℤ) : ℚ)
    else (rass_points.getLastD (0, 0)).1
  if y_max ≤ y_min then (y_min, y_min + 100) else (y_min, y_max)

/-! ### RASS parsing and resampling (`parse_rass`) -/

/-- The observation-timestamp scan of `parse_rass` (src lines 107-114):
among the first 12 lines, find one whose first six whitespace tokens pass
the `replace(".", "", 1).isdigit()` test and whose first token has at most
two characters, and format the ISO string; a long first token does not
stop the scan. -/
def obsScanGo : List String → Option String
  | [] => none
  | line :: rest =>
    let parts := pySplit line
    if 6 ≤ parts.length ∧ (parts.take 6).all (fun p => pyIsdigit (removeFirstDot p)) then
      let yy := parts.getD 0 ""
      if yy.length ≤ 2 then
        some ("20" ++ yy ++ "-" ++ zfill 2 (parts.getD 1 "") ++ "-" ++
          zfill 2 (parts.getD 2 "") ++ "T" ++ zfill 2 (parts.getD 3 "") ++ ":" ++
          zfill 2 (parts.getD 4 "") ++ ":" ++ zfill 2 (parts.getD 5 ""))
      else obsScanGo rest
    else obsScanGo rest

def obsScan (lines : List String) : Option String :=
  obsScanGo (lines.take 12)

/-- The table-header search of `parse_rass` (src lines 116-122): the lines
after the first one whose stripped content starts with `"HT"`; `none`
models the `RuntimeError` when no header exists. -/
def findHT : List String → Option (List String)
  | [] => none
  | line :: rest => if pyStartsWith "HT" (pyStrip line) then some rest else findHT rest

/-- The data-line loop of `parse_rass` (src lines 124-138): stop at a blank
or `$` line, skip short lines, unparsable numbers and sentinel temperatures
(≥ 999999); altitude is in kilometres and scaled to metres. -/
def parseBody : List String → List (ℚ × ℚ)
  | [] => []
  | line :: rest =>
    if pyStrip line = "" ∨ pyStartsWith "$" (pyStrip line) then []
    else
      let parts := pySplit line
      if parts.length < 2 then parseBody rest
      else
        match pyFloat? (parts.getD 0 ""), pyFloat? (parts.getD 1 "") with
        | some a, some t =>
            if 999999 ≤ t then parseBody rest
            else (a * 1000, t) :: parseBody rest
        | _, _ => parseBody rest

/-- The valid points of a sounding: the parse stage of `parse_rass` up to
and including the `len(points) < 2` check (src lines 116-141), before
sorting and resampling. -/
def parse_rass_points (lines : List String) : Option (List (ℚ × ℚ)) :=
  match findHT lines with
  | none => none
  | some body =>
    let points := parseBody body
    if points.length < 2 then none else some points

/-- `points.sort(key=lambda x: x[0])` (src line 143): Python's sort is
stable, as is insertion sort with a non-strict comparison on the key. -/
def sortPoints (pts : List (ℚ × ℚ)) : List (ℚ × ℚ) :=
  List.insertionSort (fun a b => a.1 ≤ b.1) pts

/-- Altitude of the `i`-th sorted point (`points[i][0]`). -/
def keyAt (pts : List (ℚ × ℚ)) (i : ℕ) : ℚ := (pts.getD i (0, 0)).1

/-- Temperature of the `i`-th sorted point (`points[i][1]`). -/
def tempAt (pts : List (ℚ × ℚ)) (i : ℕ) : ℚ := (pts.getD i (0, 0)).2

/-- `min_alt = int(math.ceil(points[0][0] / 100.0) * 100)` (src line 144). -/
def rassLo (pts : List (ℚ × ℚ)) : ℤ := ⌈(pts.headD (0, 0)).1 / 100⌉ * 100

/-- `max_alt = int(math.floor(points[-1][0] / 100.0) * 100)` (src line 145). -/
def rassHi (pts : List (ℚ × ℚ)) : ℤ := ⌊(pts.getLastD (0, 0)).1 / 100⌋ * 100

/-- Number of elements of `range(lo, hi + 1, 100)` for the multiples of 100
produced by `rassLo` / `rassHi`. -/
def gridCount (lo hi : ℤ) : ℕ :=
  if hi < lo then 0 else (hi - lo).toNat / 100 + 1

/-- `alt_grid = list(range(min_alt, max_alt + 1, 100))` (src line 147). -/
def altGrid (lo hi : ℤ) : List ℤ :=
  (List.range (gridCount lo hi)).map (fun k : ℕ => lo + 100 * (k : ℤ))

/-- Bounded-iteration form of the segment-pointer loop; the fuel is the
exact remaining iteration budget `len(points) - 2 - j` of the `while`
condition. -/
def advancePtrAux (pts : List (ℚ × ℚ)) (alt : ℚ) : ℕ → ℕ → ℕ
  | 0, j => j
  | fuel + 1, j =>
      if j < pts.length - 2 ∧ keyAt pts (j + 1) < alt then
        advancePtrAux pts alt fuel (j + 1)
      else j

/-- The forward segment-pointer advance
`while j < len(points) - 2 and points[j + 1][0] < alt: j += 1`
(src lines 152-153): each iteration increments `j` while `j` stays below
`len(points) - 2`, so `len(points) - 2 - j` bounds the iteration count
exactly. -/
def advancePtr (pts : List (ℚ × ℚ)) (alt : ℚ) (j : ℕ) : ℕ :=
  advancePtrAux pts alt (pts.length - 2 - j) j

/-- The interpolation step of `parse_rass` (src lines 154-159). -/
def interpAt (pts : List (ℚ × ℚ)) (alt : ℚ) (j : ℕ) : ℚ :=
  let a0 := keyAt pts j
  let t0 := tempAt pts j
  let a1 := keyAt pts (j + 1)
  let t1 := tempAt pts (j + 1)
  if a1 = a0 then t0 else t0 + (t1 - t0) * (alt - a0) / (a1 - a0)

/-- The resampling loop of `parse_rass` (src lines 150-160), carrying the
segment pointer `j` across grid altitudes. -/
def resampleLoop (pts : List (ℚ × ℚ)) : List ℤ → ℕ → List (ℤ × ℚ)
  | [], _ => []
  | alt :: rest, j =>
      let j' := advancePtr pts (alt : ℚ) j
      (alt, interpAt pts (alt : ℚ) j') :: resampleLoop pts rest j'

/-- The sort-and-resample stage of `parse_rass` (src lines 143-160). -/
def resample (pts0 : List (ℚ × ℚ)) : List (ℤ × ℚ) :=
  let pts := sortPoints pts0
  resampleLoop pts (altGrid (rassLo pts) (rassHi pts)) 0

/-- `parse_rass` (src lines 104-162) on the lines of the raw text:
`none` models the two `RuntimeError`s (missing header, fewer than two
valid points); otherwise the optional observation timestamp and the
resampled profile are returned. -/
def parse_rass (lines : List String) : Option (Option String × List (ℤ × ℚ)) :=
  match parse_rass_points lines with
  | none => none
  | some points => some (obsScan lines, resample points)

/-! ### Snapshot-history pruning -/

/-- `HISTORY_RETENTION_HOURS` (src line 53). -/
def HISTORY_RETENTION_HOURS : ℕ := 48

/-- A history snapshot dict as `prune_history_snapshots` sees it: the
`run_at` key (absent or non-string modelled as `none`) and an opaque tag
standing for the rest of the payload (charts, rass, stations). -/
structure Snap where
  run_at : Option String := none
  payload : ℕ := 0
deriving DecidableEq, Repr

/-- `%Y-%m-%dT%H:%M:%SZ` strftime of a civil UTC timestamp. -/
def formatUTC (dt : DateTimeUTC) : String :=
  zfill 4 (toString dt.year) ++ "-" ++ zfill 2 (toString dt.month) ++ "-" ++
    zfill 2 (toString dt.day) ++ "T" ++ zfill 2 (toString dt.hour) ++ ":" ++
    zfill 2 (toString dt.minute) ++ ":" ++ zfill 2 (toString dt.second) ++ "Z"

/-- Python dict assignment `m[k] = v`: replace in place if the key exists,
else append. -/
def upsert (m : List (String × Snap)) (k : String) (v : Snap) : List (String × Snap) :=
  match m with
  | [] => [(k, v)]
  | (k', v') :: rest => if k' = k then (k, v) :: rest else (k', v') :: upsert rest k v

/-- Association-list lookup (Python `m[k]` on the dedup dict). -/
def lookupStr (k : String) : List (String × Snap) → Option Snap
  | [] => none
  | (k', v) :: rest => if k' = k then some v else lookupStr k rest

/-- The filter-normalize-dedup loop body of `prune_history_snapshots`
(src lines 558-568), for one snapshot. -/
def pruneStep (now : ℚ) (m : List (String × Snap)) (s : Snap) : List (String × Snap) :=
  match s.run_at with
  | none => m
  | some raw =>
    match parse_iso_utc (some raw) with
    | none => m
    | some dt =>
        if ((toEpoch dt : ℚ)) < now - (HISTORY_RETENTION_HOURS : ℚ) * 3600 then m
        else
          let key := formatUTC dt
          upsert m key { s with run_at := some key }

/-- `prune_history_snapshots` (src lines 554-570): filter to parseable run
timestamps within the retention window, normalize the timestamp, dedup by
it (later snapshot wins), and return the values in sorted key order.  The
reference time `now_utc` is given in epoch seconds. -/
def prune_history_snapshots (snapshots : List Snap) (now : ℚ) : List Snap :=
  let deduped := snapshots.foldl (pruneStep now) []
  let keys := List.insertionSort (fun a b : String => pyStrLe a b = true) (deduped.map Prod.fst)
  keys.map (fun k => (lookupStr k deduped).getD {})

/-- The normalized retention key a snapshot gets in
`prune_history_snapshots`, or `none` if it is dropped (missing or
unparseable `run_at`, or run time more than 48 h before `now`) — the guard
of the loop body, factored out for the specification. -/
def survives (now : ℚ) (s : Snap) : Option String :=
  match s.run_at with
  | none => none
  | some raw =>
    match parse_iso_utc (some raw) with
    | none => none
    | some dt =>
        if ((toEpoch dt : ℚ)) < now - (HISTORY_RETENTION_HOURS : ℚ) * 3600 then none
        else some (formatUTC dt)

/-- The dedup dict built by the loop of `prune_history_snapshots`
(proof-side shorthand for the fold). -/
def dedupedOf (snaps : List Snap) (now : ℚ) : List (String × Snap) :=
  snaps.foldl (pruneStep now) []

/-- The sorted key list of `prune_history_snapshots` (proof-side
shorthand). -/
def keysOf (snaps : List Snap) (now : ℚ) : List String :=
  List.insertionSort (fun a b : String => pyStrLe a b = true)
    ((dedupedOf snaps now).map Prod.fst)

/-- The merged row of `apply_last_good_fallback` before the provider
tagging step (proof-side shorthand for the fill chain). -/
def algfCore (r c : Row) (now : ℚ) : Row :=
  (fillDir
    (fillGust
      (fillSpd
        (fillDew
          (fillTemp (fillElev r c) c (within_grace c.temp_ob_time now)).1
          c (within_grace c.temp_ob_time now)).1
        c (within_grace c.wind_ob_time now)).1
      c (within_grace c.wind_ob_time now)).1
    c (within_grace c.wind_ob_time now)).1

/-! ### Concrete inputs for witnesses and counterexamples -/

/-- A primary row with a recent temperature but a missing dewpoint. -/
def exRecentRow : Row :=
  { id := "SE234", name := "AntFarm", elev_m := some 100, temp_c := some 20,
    dew_c := none, temp_ob_time := some "2024-01-01T00:20:00Z",
    provider := some "MADIS", wind_dir := some 90, wind_spd_mps := some 3,
    wind_gust_mps := some 5, wind_ob_time := some "2024-01-01T00:20:00Z",
    recent := true, age_min := some 10 }

/-- A cached row with an in-grace temperature observation. -/
def exCachedRow : Row :=
  { id := "SE234", name := "AntFarm", elev_m := some 100, temp_c := some 18,
    dew_c := some 5, temp_ob_time := some "2024-01-01T00:15:00Z",
    provider := some "MADIS", wind_dir := some 270, wind_spd_mps := some 2,
    wind_gust_mps := some 4, wind_ob_time := some "2024-01-01T00:15:00Z" }

/-- A row with every measurement field present (frame-condition witness). -/
def exFullRow : Row :=
  { id := "MTIC1", name := "Montecito", elev_m := some 50, temp_c := some 21,
    dew_c := some 6, temp_ob_time := some "2024-01-01T00:20:00Z",
    provider := some "MADIS", wind_dir := some 10, wind_spd_mps := some 1,
    wind_gust_mps := some 2, wind_ob_time := some "2024-01-01T00:20:00Z",
    recent := true, age_min := some 10 }

/-- A row with a present temperature observation time but no temperature. -/
def exStaleTimeRow : Row :=
  { id := "MPWC1", name := "SM Pass", temp_c := none,
    temp_ob_time := some "2023-12-31T23:00:00Z" }

/-- A row whose provider already carries two `"(last-good)"` occurrences. -/
def exDoubleTagRow : Row :=
  { id := "421SE", name := "Parma",
    provider := some "MADIS (last-good) (last-good)" }

/-- Reference time 2024-01-01T00:30:00Z in epoch seconds. -/
def exNow : ℚ := 1704069000

/-- Sounding text (as lines) with two valid points at distinct altitudes. -/
def exGoodLines : List String := ["HT", "0.0 15.0", "1.0 9.0"]

/-- Sounding text with two valid points at the same altitude but different
temperatures. -/
def exDupLines : List String := ["HT", "0.0 10.0", "0.0 20.0"]

/-- The parsed points of `exGoodLines`. -/
def exGoodPts : List (ℚ × ℚ) := [(0, 15), (1000, 9)]

/-- Sounding text whose two valid points lie strictly inside one 100 m
band, so the resampling grid is empty. -/
def exBandLines : List String := ["HT", "0.03 10", "0.07 11"]

/-- A profile whose altitudes span less than 100 m and start above 0. -/
def exShortProfile : List (ℚ × ℚ) := [(20, 10), (70, 9)]

/-- A sorted two-point profile starting above 0. -/
def exDomProfile : List (ℚ × ℚ) := [(300, 10), (455, 9)]

/-- A single plotted station with an elevation. -/
def exDomStations : List Row :=
  [{ id := "KC6OYN", name := "La Cumbre", elev_m := some 950,
     temp_c := some 11, recent := true }]

/-- History snapshots exercising duplicate normalization, missing and
unparseable timestamps, and the retention cutoff. -/
def exHistSnaps : List Snap :=
  [{ run_at := some "2024-01-01T10:00:00+00:00", payload := 1 },
   { run_at := some "2024-01-01T10:00:00Z", payload := 2 },
   { run_at := none, payload := 3 },
   { run_at := some "bogus", payload := 4 },
   { run_at := some "2023-12-25T00:00:00Z", payload := 5 },
   { run_at := some "2024-01-02T11:00:00Z", payload := 6 }]

/-- 2024-01-02T12:00:00Z in epoch seconds. -/
def exHistNow : ℚ := ((toEpoch ⟨2024, 1, 2, 12, 0, 0⟩ : ℤ) : ℚ)

/-! ### Helper lemmas: the cache-fallback fill steps -/

@[simp] theorem fillElev_id (m c : Row) : (fillElev m c).id = m.id := by
  unfold fillElev; split <;> rfl

@[simp] theorem fillElev_name (m c : Row) : (fillElev m c).name = m.name := by
  unfold fillElev; split <;> rfl

@[simp] theorem fillElev_temp (m c : Row) : (fillElev m c).temp_c = m.temp_c := by
  unfold fillElev; split <;> rfl

@[simp] theorem fillElev_dew (m c : Row) : (fillElev m c).dew_c = m.dew_c := by
  unfold fillElev; split <;> rfl

@[simp] theorem fillElev_tot (m c : Row) : (fillElev m c).temp_ob_time = m.temp_ob_time := by
  unfold fillElev; split <;> rfl

@[simp] theorem fillElev_dir (m c : Row) : (fillElev m c).wind_dir = m.wind_dir := by
  unfold fillElev; split <;> rfl

@[simp] theorem fillElev_spd (m c : Row) : (fillElev m c).wind_spd_mps = m.wind_spd_mps := by
  unfold fillElev; split <;> rfl

@[simp] theorem fillElev_gust (m c : Row) : (fillElev m c).wind_gust_mps = m.wind_gust_mps := by
  unfold fillElev; split <;> rfl

@[simp] theorem fillElev_wot (m c : Row) : (fillElev m c).wind_ob_time = m.wind_ob_time := by
  unfold fillElev; split <;> rfl

@[simp] theorem fillElev_provider (m c : Row) : (fillElev m c).provider = m.provider := by
  unfold fillElev; split <;> rfl

@[simp] theorem fillElev_recent (m c : Row) : (fillElev m c).recent = m.recent := by
  unfold fillElev; split <;> rfl

@[simp] theorem fillElev_age (m c : Row) : (fillElev m c).age_min = m.age_min := by
  unfold fillElev; split <;> rfl

theorem fillElev_of_some (m c : Row) (h : m.elev_m ≠ none) : fillElev m c = m := by
  unfold fillElev
  rw [if_neg]
  intro hc
  exact h hc.1

@[simp] theorem fillTemp_id (m c : Row) (ok : Bool) : (fillTemp m c ok).1.id = m.id := by
  unfold fillTemp; split <;> rfl

@[simp] theorem fillTemp_name (m c : Row) (ok : Bool) : (fillTemp m c ok).1.name = m.name := by
  unfold fillTemp; split <;> rfl

@[simp] theorem fillTemp_elev (m c : Row) (ok : Bool) : (fillTemp m c ok).1.elev_m = m.elev_m := by
  unfold fillTemp; split <;> rfl

@[simp] theorem fillTemp_dew (m c : Row) (ok : Bool) : (fillTemp m c ok).1.dew_c = m.dew_c := by
  unfold fillTemp; split <;> rfl

@[simp] theorem fillTemp_dir (m c : Row) (ok : Bool) : (fillTemp m c ok).1.wind_dir = m.wind_dir := by
  unfold fillTemp; split <;> rfl

@[simp] theorem fillTemp_spd (m c : Row) (ok : Bool) : (fillTemp m c ok).1.wind_spd_mps = m.wind_spd_mps := by
  unfold fillTemp; split <;> rfl

@[simp] theorem fillTemp_gust (m c : Row) (ok : Bool) : (fillTemp m c ok).1.wind_gust_mps = m.wind_gust_mps := by
  unfold fillTemp; split <;> rfl

@[simp] theorem fillTemp_wot (m c : Row) (ok : Bool) : (fillTemp m c ok).1.wind_ob_time = m.wind_ob_time := by
  unfold fillTemp; split <;> rfl

@[simp] theorem fillTemp_provider (m c : Row) (ok : Bool) : (fillTemp m c ok).1.provider = m.provider := by
  unfold fillTemp; split <;> rfl

theorem fillTemp_skip (m c : Row) (ok : Bool) (h : m.temp_c ≠ none) :
    fillTemp m c ok = (m, false) := by
  unfold fillTemp
  rw [if_neg]
  intro hc
  exact h hc.1

@[simp] theorem fillDew_id (m c : Row) (ok : Bool) : (fillDew m c ok).1.id = m.id := by
  unfold fillDew; split <;> rfl

@[simp] theorem fillDew_name (m c : Row) (ok : Bool) : (fillDew m c ok).1.name = m.name := by
  unfold fillDew; split <;> rfl

@[simp] theorem fillDew_elev (m c : Row) (ok : Bool) : (fillDew m c ok).1.elev_m = m.elev_m := by
  unfold fillDew; split <;> rfl

@[simp] theorem fillDew_temp (m c : Row) (ok : Bool) : (fillDew m c ok).1.temp_c = m.temp_c := by
  unfold fillDew; split <;> rfl

@[simp] theorem fillDew_tot (m c : Row) (ok : Bool) : (fillDew m c ok).1.temp_ob_time = m.temp_ob_time := by
  unfold fillDew; split <;> rfl

@[simp] theorem fillDew_dir (m c : Row) (ok : Bool) : (fillDew m c ok).1.wind_dir = m.wind_dir := by
  unfold fillDew; split <;> rfl

@[simp] theorem fillDew_spd (m c : Row) (ok : Bool) : (fillDew m c ok).1.wind_spd_mps = m.wind_spd_mps := by
  unfold fillDew; split <;> rfl

@[simp] theorem fillDew_gust (m c : Row) (ok : Bool) : (fillDew m c ok).1.wind_gust_mps = m.wind_gust_mps := by
  unfold fillDew; split <;> rfl

@[simp] theorem fillDew_wot (m c : Row) (ok : Bool) : (fillDew m c ok).1.wind_ob_time = m.wind_ob_time := by
  unfold fillDew; split <;> rfl

@[simp] theorem fillDew_provider (m c : Row) (ok : Bool) : (fillDew m c ok).1.provider = m.provider := by
  unfold fillDew; split <;> rfl

theorem fillDew_skip (m c : Row) (ok : Bool) (h : m.dew_c ≠ none) :
    fillDew m c ok = (m, false) := by
  unfold fillDew
  rw [if_neg]
  intro hc
  exact h hc.1

@[simp] theorem fillSpd_id (m c : Row) (ok : Bool) : (fillSpd m c ok).1.id = m.id := by
  unfold fillSpd; split <;> rfl

@[simp] theorem fillSpd_name (m c : Row) (ok : Bool) : (fillSpd m c ok).1.name = m.name := by
  unfold fillSpd; split <;> rfl

@[simp] theorem fillSpd_elev (m c : Row) (ok : Bool) : (fillSpd m c ok).1.elev_m = m.elev_m := by
  unfold fillSpd; split <;> rfl

@[simp] theorem fillSpd_temp (m c : Row) (ok : Bool) : (fillSpd m c ok).1.temp_c = m.temp_c := by
  unfold fillSpd; split <;> rfl

@[simp] theorem fillSpd_dew (m c : Row) (ok : Bool) : (fillSpd m c ok).1.dew_c = m.dew_c := by
  unfold fillSpd; split <;> rfl

@[simp] theorem fillSpd_tot (m c : Row) (ok : Bool) : (fillSpd m c ok).1.temp_ob_time = m.temp_ob_time := by
  unfold fillSpd; split <;> rfl

@[simp] theorem fillSpd_dir (m c : Row) (ok : Bool) : (fillSpd m c ok).1.wind_dir = m.wind_dir := by
  unfold fillSpd; split <;> rfl

@[simp] theorem fillSpd_gust (m c : Row) (ok : Bool) : (fillSpd m c ok).1.wind_gust_mps = m.wind_gust_mps := by
  unfold fillSpd; split <;> rfl

@[simp] theorem fillSpd_provider (m c : Row) (ok : Bool) : (fillSpd m c ok).1.provider = m.provider := by
  unfold fillSpd; split <;> rfl

theorem fillSpd_skip (m c : Row) (ok : Bool) (h : m.wind_spd_mps ≠ none) :
    fillSpd m c ok = (m, false) := by
  unfold fillSpd
  rw [if_neg]
  intro hc
  exact h hc.1

@[simp] theorem fillGust_id (m c : Row) (ok : Bool) : (fillGust m c ok).1.id = m.id := by
  unfold fillGust; split <;> rfl

@[simp] theorem fillGust_name (m c : Row) (ok : Bool) : (fillGust m c ok).1.name = m.name := by
  unfold fillGust; split <;> rfl

@[simp] theorem fillGust_elev (m c : Row) (ok : Bool) : (fillGust m c ok).1.elev_m = m.elev_m := by
  unfold fillGust; split <;> rfl

@[simp] theorem fillGust_temp (m c : Row) (ok : Bool) : (fillGust m c ok).1.temp_c = m.temp_c := by
  unfold fillGust; split <;> rfl

@[simp] theorem fillGust_dew (m c : Row) (ok : Bool) : (fillGust m c ok).1.dew_c = m.dew_c := by
  unfold fillGust; split <;> rfl

@[simp] theorem fillGust_tot (m c : Row) (ok : Bool) : (fillGust m c ok).1.temp_ob_time = m.temp_ob_time := by
  unfold fillGust; split <;> rfl

@[simp] theorem fillGust_dir (m c : Row) (ok : Bool) : (fillGust m c ok).1.wind_dir = m.wind_dir := by
  unfold fillGust; split <;> rfl

@[simp] theorem fillGust_spd (m c : Row) (ok : Bool) : (fillGust m c ok).1.wind_spd_mps = m.wind_spd_mps := by
  unfold fillGust; split <;> rfl

@[simp] theorem fillGust_provider (m c : Row) (ok : Bool) : (fillGust m c ok).1.provider = m.provider := by
  unfold fillGust; split <;> rfl

theorem fillGust_skip (m c : Row) (ok : Bool) (h : m.wind_gust_mps ≠ none) :
    fillGust m c ok = (m, false) := by
  unfold fillGust
  rw [if_neg]
  intro hc
  exact h hc.1

theorem fillGust_wot_of_some (m c : Row) (ok : Bool) (h : m.wind_ob_time ≠ none) :
    (fillGust m c ok).1.wind_ob_time = m.wind_ob_time := by
  unfold fillGust
  split
  · simp [if_neg h]
  · rfl

@[simp] theorem fillDir_id (m c : Row) (ok : Bool) : (fillDir m c ok).1.id = m.id := by
  unfold fillDir; split <;> rfl

@[simp] theorem fillDir_name (m c : Row) (ok : Bool) : (fillDir m c ok).1.name = m.name := by
  unfold fillDir; split <;> rfl

@[simp] theorem fillDir_elev (m c : Row) (ok : Bool) : (fillDir m c ok).1.elev_m = m.elev_m := by
  unfold fillDir; split <;> rfl

@[simp] theorem fillDir_temp (m c : Row) (ok : Bool) : (fillDir m c ok).1.temp_c = m.temp_c := by
  unfold fillDir; split <;> rfl

@[simp] theorem fillDir_dew (m c : Row) (ok : Bool) : (fillDir m c ok).1.dew_c = m.dew_c := by
  unfold fillDir; split <;> rfl

@[simp] theorem fillDir_tot (m c : Row) (ok : Bool) : (fillDir m c ok).1.temp_ob_time = m.temp_ob_time := by
  unfold fillDir; split <;> rfl

@[simp] theorem fillDir_spd (m c : Row) (ok : Bool) : (fillDir m c ok).1.wind_spd_mps = m.wind_spd_mps := by
  unfold fillDir; split <;> rfl

@[simp] theorem fillDir_gust (m c : Row) (ok : Bool) : (fillDir m c ok).1.wind_gust_mps = m.wind_gust_mps := by
  unfold fillDir; split <;> rfl

@[simp] theorem fillDir_provider (m c : Row) (ok : Bool) : (fillDir m c ok).1.provider = m.provider := by
  unfold fillDir; split <;> rfl

theorem fillDir_skip (m c : Row) (ok : Bool) (h : m.wind_dir ≠ none) :
    fillDir m c ok = (m, false) := by
  unfold fillDir
  rw [if_neg]
  intro hc
  exact h hc.1

theorem fillDir_wot_of_some (m c : Row) (ok : Bool) (h : m.wind_ob_time ≠ none) :
    (fillDir m c ok).1.wind_ob_time = m.wind_ob_time := by
  unfold fillDir
  split
  · simp [if_neg h]
  · rfl

/-! ### C3: recency invariant -/

/-- C3: after `update_age_and_recency` is applied to any row with any
reference time, `recent` is true iff `age_min` is defined and at most 60
minutes, and a missing or unparseable temperature observation time leaves
`age_min` undefined and `recent` false. -/
theorem update_age_and_recency_recent_iff (row : Row) (now : ℚ) :
    ((update_age_and_recency row now).recent = true ↔
      ∃ a : ℚ, (update_age_and_recency row now).age_min = some a ∧ a ≤ 60) ∧
    (parse_iso_utc row.temp_ob_time = none →
      (update_age_and_recency row now).age_min = none ∧
      (update_age_and_recency row now).recent = false) ∧
    (row.temp_ob_time = none →
      (update_age_and_recency row now).age_min = none ∧
      (update_age_and_recency row now).recent = false) := by
  unfold update_age_and_recency
  cases h : parse_iso_utc row.temp_ob_time with
  | none => simp
  | some dt =>
    refine ⟨by simp, ?_, ?_⟩
    · intro hn
      simp at hn
    · intro hn
      rw [hn] at h
      simp [parse_iso_utc] at h

/-- Witness for C3 at a concrete row whose age lands exactly on the 60
minute boundary. -/
theorem update_age_and_recency_recent_iff_witness :
    (update_age_and_recency exStaleTimeRow exNow).age_min = some 90 ∧
    (((update_age_and_recency exStaleTimeRow exNow).recent = true ↔
      ∃ a : ℚ, (update_age_and_recency exStaleTimeRow exNow).age_min = some a ∧ a ≤ 60) ∧
    (parse_iso_utc exStaleTimeRow.temp_ob_time = none →
      (update_age_and_recency exStaleTimeRow exNow).age_min = none ∧
      (update_age_and_recency exStaleTimeRow exNow).recent = false) ∧
    (exStaleTimeRow.temp_ob_time = none →
      (update_age_and_recency exStaleTimeRow exNow).age_min = none ∧
      (update_age_and_recency exStaleTimeRow exNow).recent = false)) :=
  ⟨by with_unfolding_all decide, update_age_and_recency_recent_iff exStaleTimeRow exNow⟩

/-! ### C7: fetch failure degrades to a blank row -/

/-- C7: if the primary-feed fetch or its XML parse raises (modelled by a
`none` response), `fetch_station` returns the fully blank row for that
station — id and display name set, every measurement field absent — and no
error escapes (the function is total, so a per-station failure cannot
abort the batch). -/
theorem fetch_station_failure_blank (station_id : String) :
    fetch_station station_id none = blank_station_row station_id ∧
    (blank_station_row station_id).id = station_id ∧
    (blank_station_row station_id).name = (STATION_NAMES station_id).getD station_id ∧
    (blank_station_row station_id).elev_m = none ∧
    (blank_station_row station_id).temp_c = none ∧
    (blank_station_row station_id).dew_c = none ∧
    (blank_station_row station_id).temp_ob_time = none ∧
    (blank_station_row station_id).provider = none ∧
    (blank_station_row station_id).wind_dir = none ∧
    (blank_station_row station_id).wind_spd_mps = none ∧
    (blank_station_row station_id).wind_gust_mps = none ∧
    (blank_station_row station_id).wind_ob_time = none :=
  ⟨rfl, rfl, rfl, rfl, rfl, rfl, rfl, rfl, rfl, rfl, rfl, rfl⟩

/-! ### C2 and C4: merge and cache-fallback frame conditions -/

/-- `apply_last_good_fallback` returns the fill-chain row, possibly with a
retagged provider. -/
theorem apply_last_good_fallback_cases (r c : Row) (now : ℚ) :
    apply_last_good_fallback r c now = algfCore r c now ∨
    ∃ p : String, apply_last_good_fallback r c now =
      { algfCore r c now with provider := some p } := by
  simp only [apply_last_good_fallback, algfCore]
  split
  · split
    · exact Or.inl rfl
    · exact Or.inr ⟨_, rfl⟩
  · exact Or.inl rfl

/-- C2 (corrected, amended): a primary row with `recent == true` and a
defined temperature passes through `merge_cwop_if_needed` completely
unchanged; `apply_last_good_fallback`, however, is not gated on recency —
it leaves such a row unchanged only when the row also has no absent
measurement fields (here: all six measurement fields present). -/
theorem recent_row_merge_frame (m c r cc : Row) (now : ℚ)
    (hm : m.temp_c ≠ none) (hrec : m.recent = true)
    (h1 : r.elev_m ≠ none) (h2 : r.temp_c ≠ none) (h3 : r.dew_c ≠ none)
    (h4 : r.wind_spd_mps ≠ none) (h5 : r.wind_gust_mps ≠ none)
    (h6 : r.wind_dir ≠ none) :
    merge_cwop_if_needed m c = m ∧ apply_last_good_fallback r cc now = r := by
  constructor
  · unfold merge_cwop_if_needed
    by_cases hc : c.temp_c = none
    · simp [hc]
    · rw [if_neg hc, if_pos (⟨hm, hrec⟩ : m.temp_c ≠ none ∧ m.recent = true)]
  · unfold apply_last_good_fallback
    simp only [fillElev_of_some r cc h1, fillTemp_skip r cc _ h2,
      fillDew_skip r cc _ h3, fillSpd_skip r cc _ h4, fillGust_skip r cc _ h5,
      fillDir_skip r cc _ h6, Bool.or_self, Bool.or_false, if_neg]
    simp

/-- Witness for C2 (amended) at a fully populated recent row. -/
theorem recent_row_merge_frame_witness :
    merge_cwop_if_needed exFullRow exCachedRow = exFullRow ∧
    apply_last_good_fallback exFullRow exCachedRow exNow = exFullRow :=
  recent_row_merge_frame exFullRow exCachedRow exFullRow exCachedRow exNow
    (by decide) (by decide) (by decide) (by decide) (by decide) (by decide)
    (by decide) (by decide)

/-- C2 counterexample: the cache fallback fills the absent dewpoint of a
row that already has a recent temperature, and retags its provider — so
the last-known-good stage does change fields of a recent row, contrary to
the claim. -/
theorem recent_row_cache_overwrite_cex :
    exRecentRow.temp_c = some 20 ∧ exRecentRow.recent = true ∧
    exRecentRow.dew_c = none ∧ exRecentRow.provider = some "MADIS" ∧
    (apply_last_good_fallback exRecentRow exCachedRow exNow).dew_c = some 5 ∧
    (apply_last_good_fallback exRecentRow exCachedRow exNow).provider =
      some "MADIS (last-good)" ∧
    apply_last_good_fallback exRecentRow exCachedRow exNow ≠ exRecentRow := by
  with_unfolding_all decide

/-- C4 (corrected, amended): `apply_last_good_fallback` never overwrites a
present measurement field (elevation, temperature, dewpoint, wind
direction, speed, gust) and leaves id and name untouched; a present
temperature observation time is preserved whenever the temperature is
present, and a present wind observation time whenever the wind speed is
present.  (The observation-time and provider fields may otherwise be
rewritten when the corresponding cached measurement is adopted.) -/
theorem apply_last_good_fallback_frame (r c : Row) (now : ℚ) :
    (apply_last_good_fallback r c now).id = r.id ∧
    (apply_last_good_fallback r c now).name = r.name ∧
    (∀ v, r.elev_m = some v → (apply_last_good_fallback r c now).elev_m = some v) ∧
    (∀ v, r.temp_c = some v → (apply_last_good_fallback r c now).temp_c = some v) ∧
    (∀ v, r.dew_c = some v → (apply_last_good_fallback r c now).dew_c = some v) ∧
    (∀ v, r.wind_dir = some v → (apply_last_good_fallback r c now).wind_dir = some v) ∧
    (∀ v, r.wind_spd_mps = some v → (apply_last_good_fallback r c now).wind_spd_mps = some v) ∧
    (∀ v, r.wind_gust_mps = some v → (apply_last_good_fallback r c now).wind_gust_mps = some v) ∧
    (r.temp_c ≠ none → (apply_last_good_fallback r c now).temp_ob_time = r.temp_ob_time) ∧
    (r.wind_spd_mps ≠ none → r.wind_ob_time ≠ none →
      (apply_last_good_fallback r c now).wind_ob_time = r.wind_ob_time) := by
  have hcases := apply_last_good_fallback_cases r c now
  have hid : (apply_last_good_fallback r c now).id = (algfCore r c now).id := by
    rcases hcases with h | ⟨p, h⟩ <;> rw [h]
  have hname : (apply_last_good_fallback r c now).name = (algfCore r c now).name := by
    rcases hcases with h | ⟨p, h⟩ <;> rw [h]
  have helev : (apply_last_good_fallback r c now).elev_m = (algfCore r c now).elev_m := by
    rcases hcases with h | ⟨p, h⟩ <;> rw [h]
  have htemp : (apply_last_good_fallback r c now).temp_c = (algfCore r c now).temp_c := by
    rcases hcases with h | ⟨p, h⟩ <;> rw [h]
  have hdew : (apply_last_good_fallback r c now).dew_c = (algfCore r c now).dew_c := by
    rcases hcases with h | ⟨p, h⟩ <;> rw [h]
  have hdir : (apply_last_good_fallback r c now).wind_dir = (algfCore r c now).wind_dir := by
    rcases hcases with h | ⟨p, h⟩ <;> rw [h]
  have hspd : (apply_last_good_fallback r c now).wind_spd_mps = (algfCore r c now).wind_spd_mps := by
    rcases hcases with h | ⟨p, h⟩ <;> rw [h]
  have hgust : (apply_last_good_fallback r c now).wind_gust_mps = (algfCore r c now).wind_gust_mps := by
    rcases hcases with h | ⟨p, h⟩ <;> rw [h]
  have htot : (apply_last_good_fallback r c now).temp_ob_time = (algfCore r c now).temp_ob_time := by
    rcases hcases with h | ⟨p, h⟩ <;> rw [h]
  have hwot : (apply_last_good_fallback r c now).wind_ob_time = (algfCore r c now).wind_ob_time := by
    rcases hcases with h | ⟨p, h⟩ <;> rw [h]
  refine ⟨?_, ?_, ?_, ?_, ?_, ?_, ?_, ?_, ?_, ?_⟩
  · rw [hid]; simp [algfCore]
  · rw [hname]; simp [algfCore]
  · intro v hv
    rw [helev]
    unfold algfCore
    simp only [fillDir_elev, fillGust_elev, fillSpd_elev, fillDew_elev, fillTemp_elev]
    rw [fillElev_of_some r c (by simp [hv])]
    exact hv
  · intro v hv
    rw [htemp]
    unfold algfCore
    simp only [fillDir_temp, fillGust_temp, fillSpd_temp, fillDew_temp]
    rw [fillTemp_skip _ c _ (by simp [hv])]
    simp [hv]
  · intro v hv
    rw [hdew]
    unfold algfCore
    simp only [fillDir_dew, fillGust_dew, fillSpd_dew]
    rw [fillDew_skip _ c _ (by simp [hv])]
    simp [hv]
  · intro v hv
    rw [hdir]
    unfold algfCore
    rw [fillDir_skip _ c _ (by simp [hv])]
    simp [hv]
  · intro v hv
    rw [hspd]
    unfold algfCore
    simp only [fillDir_spd, fillGust_spd]
    rw [fillSpd_skip _ c _ (by simp [hv])]
    simp [hv]
  · intro v hv
    rw [hgust]
    unfold algfCore
    simp only [fillDir_gust]
    rw [fillGust_skip _ c _ (by simp [hv])]
    simp [hv]
  · intro hv
    rw [htot]
    unfold algfCore
    simp only [fillDir_tot, fillGust_tot, fillSpd_tot, fillDew_tot]
    rw [fillTemp_skip _ c _ (by simp [hv])]
    simp
  · intro hspd' hwot'
    rw [hwot]
    unfold algfCore
    set tOk := within_grace c.temp_ob_time now with htok
    set wOk := within_grace c.wind_ob_time now with hwok
    set M := (fillDew (fillTemp (fillElev r c) c tOk).1 c tOk).1 with hM
    have hMspd : M.wind_spd_mps ≠ none := by
      rw [hM]; simp only [fillDew_spd, fillTemp_spd, fillElev_spd]; exact hspd'
    have hMwot : M.wind_ob_time ≠ none := by
      rw [hM]; simp only [fillDew_wot, fillTemp_wot, fillElev_wot]; exact hwot'
    have h1 : fillSpd M c wOk = (M, false) := fillSpd_skip M c wOk hMspd
    rw [h1]
    have h2 : (fillGust ((M, false) : Row × Bool).1 c wOk).1.wind_ob_time =
        M.wind_ob_time := fillGust_wot_of_some M c wOk hMwot
    have h4 : (fillDir (fillGust ((M, false) : Row × Bool).1 c wOk).1 c
        wOk).1.wind_ob_time =
        (fillGust ((M, false) : Row × Bool).1 c wOk).1.wind_ob_time :=
      fillDir_wot_of_some _ c wOk (by rw [h2]; exact hMwot)
    rw [h4, h2, hM]
    simp only [fillDew_wot, fillTemp_wot, fillElev_wot]

/-- Witness for C4 (amended) at a concrete row and cache. -/
theorem apply_last_good_fallback_frame_witness :
    (apply_last_good_fallback exRecentRow exCachedRow exNow).id = exRecentRow.id ∧
    (apply_last_good_fallback exRecentRow exCachedRow exNow).name = exRecentRow.name ∧
    (∀ v, exRecentRow.elev_m = some v →
      (apply_last_good_fallback exRecentRow exCachedRow exNow).elev_m = some v) ∧
    (∀ v, exRecentRow.temp_c = some v →
      (apply_last_good_fallback exRecentRow exCachedRow exNow).temp_c = some v) ∧
    (∀ v, exRecentRow.dew_c = some v →
      (apply_last_good_fallback exRecentRow exCachedRow exNow).dew_c = some v) ∧
    (∀ v, exRecentRow.wind_dir = some v →
      (apply_last_good_fallback exRecentRow exCachedRow exNow).wind_dir = some v) ∧
    (∀ v, exRecentRow.wind_spd_mps = some v →
      (apply_last_good_fallback exRecentRow exCachedRow exNow).wind_spd_mps = some v) ∧
    (∀ v, exRecentRow.wind_gust_mps = some v →
      (apply_last_good_fallback exRecentRow exCachedRow exNow).wind_gust_mps = some v) ∧
    (exRecentRow.temp_c ≠ none →
      (apply_last_good_fallback exRecentRow exCachedRow exNow).temp_ob_time =
        exRecentRow.temp_ob_time) ∧
    (exRecentRow.wind_spd_mps ≠ none → exRecentRow.wind_ob_time ≠ none →
      (apply_last_good_fallback exRecentRow exCachedRow exNow).wind_ob_time =
        exRecentRow.wind_ob_time) :=
  apply_last_good_fallback_frame exRecentRow exCachedRow exNow

/-- C4 counterexample: a present temperature observation time is
overwritten by the cached one when the cached temperature is adopted, so
the claim that no present field is ever overwritten fails. -/
theorem apply_overwrites_present_time_cex :
    exStaleTimeRow.temp_ob_time = some "2023-12-31T23:00:00Z" ∧
    exStaleTimeRow.temp_c = none ∧
    (apply_last_good_fallback exStaleTimeRow exCachedRow exNow).temp_ob_time =
      some "2024-01-01T00:15:00Z" ∧
    (apply_last_good_fallback exStaleTimeRow exCachedRow exNow).temp_ob_time ≠
      exStaleTimeRow.temp_ob_time := by
  with_unfolding_all decide

/-! ### C6: the last-good provenance tag -/

theorem filter_eq_singleton_of_nodup {α : Type} [DecidableEq α] (a : α) :
    ∀ l : List α, l.Nodup → a ∈ l → l.filter (fun x => decide (x = a)) = [a] := by
  intro l
  induction l with
  | nil => intro _ ha; cases ha
  | cons b t ih =>
    intro hnd hmem
    by_cases hb : b = a
    · subst hb
      have hnt : b ∉ t := (List.nodup_cons.mp hnd).1
      have : t.filter (fun x => decide (x = b)) = [] := by
        rw [List.filter_eq_nil_iff]
        intro x hx
        simp only [decide_eq_true_eq]
        intro hxa
        exact hnt (hxa ▸ hx)
      simp [List.filter_cons, this]
    · have hat : a ∈ t := by
        rcases List.mem_cons.mp hmem with h | h
        · exact absurd h.symm hb
        · exact h
      rw [List.filter_cons_of_neg (by simp [hb])]
      exact ih (List.nodup_cons.mp hnd).2 hat

/-- Appending `" (last-good)"` to a provider that does not contain the tag
produces exactly one occurrence of the tag: the appended text carries one,
and no new occurrence can straddle the boundary because no character of
the tag is a space. -/
theorem occ_append_tag (base : List Char)
    (h : occList lastGoodTag.toList base = 0) :
    occList lastGoodTag.toList (base ++ (" " ++ lastGoodTag).toList) = 1 := by
  set T := lastGoodTag.toList with hTdef
  set S := (" " ++ lastGoodTag).toList with hSdef
  have hT : T.length = 11 := by rw [hTdef]; decide
  have hS : S.length = 12 := by rw [hSdef]; decide
  have hb : ∀ p ∈ List.range (base.length + 1), ¬ ((base.drop p).take T.length = T) := by
    intro p hp hcontra
    have h0 : (List.range (base.length + 1)).filter
        (fun p => decide ((base.drop p).take T.length = T)) = [] := by
      unfold occList at h
      exact List.length_eq_zero.mp h
    have h2 := List.filter_eq_nil_iff.mp h0 p hp
    simp only [decide_eq_true_eq] at h2
    exact h2 hcontra
  have key : ∀ p ∈ List.range ((base ++ S).length + 1),
      (((base ++ S).drop p).take T.length = T) ↔ p = base.length + 1 := by
    intro p hp
    constructor
    · intro hocc
      by_contra hne
      rcases lt_or_ge p (base.length + 1) with hlt | hge
      · have hple : p ≤ base.length := by omega
        rcases le_or_lt (p + 11) base.length with hin | hspan
        · apply hb p (List.mem_range.mpr (by omega))
          have e1 : (base ++ S).drop p = base.drop p ++ S :=
            List.drop_append_of_le_length hple
          have e2 : (base.drop p ++ S).take T.length = (base.drop p).take T.length := by
            apply List.take_append_of_le_length
            rw [List.length_drop]
            omega
          rw [e1, e2] at hocc
          exact hocc
        · set i := base.length - p with hidef
          have hi : i < 11 := by omega
          have hi2 : i ≤ 10 := by omega
          have e4 : (((base ++ S).drop p).take T.length)[i]? =
              ((base ++ S).drop p)[i]? := by
            rw [List.getElem?_take, hT]
            simp [hi]
          have e3 : T[i]? = (base ++ S)[base.length]? := by
            rw [← hocc, e4, List.getElem?_drop]
            congr 1
            omega
          have e5 : (base ++ S)[base.length]? = some ' ' := by
            rw [List.getElem?_append_right (le_refl _)]
            simp [hSdef]
          rw [e5, hTdef] at e3
          interval_cases i <;> exact absurd e3 (by decide)
      · have hge2 : base.length + 2 ≤ p := by omega
        have hub : p ≤ base.length + 12 := by
          have hm := List.mem_range.mp hp
          rw [List.length_append, hS] at hm
          omega
        have e6 : (base ++ S).drop p = S.drop (p - base.length) := by
          have e6' : (base ++ S).drop (base.length + (p - base.length)) =
              S.drop (p - base.length) := List.drop_append _
          have hpeq : base.length + (p - base.length) = p := by omega
          rw [hpeq] at e6'
          exact e6'
        rw [e6] at hocc
        set k := p - base.length with hk
        have hk1 : 2 ≤ k := by omega
        have hk2 : k ≤ 12 := by omega
        rw [hTdef, hSdef] at hocc
        interval_cases k <;> exact absurd hocc (by decide)
    · intro hpe
      subst hpe
      have e7 : (base ++ S).drop (base.length + 1) = S.drop 1 := List.drop_append 1
      rw [e7, hTdef, hSdef]
      decide
  unfold occList
  have hcong : (List.range ((base ++ S).length + 1)).filter
      (fun p => decide (((base ++ S).drop p).take T.length = T)) =
      (List.range ((base ++ S).length + 1)).filter
      (fun p => decide (p = base.length + 1)) := by
    apply List.filter_congr
    intro a ha
    simp only [decide_eq_decide]
    exact key a ha
  rw [hcong, filter_eq_singleton_of_nodup (base.length + 1) _ (List.nodup_range _)
    (List.mem_range.mpr (by rw [List.length_append, hS]; omega))]
  rfl

/-- The provider after one cache-fallback application: either unchanged,
or set to a tag-free base with exactly one `" (last-good)"` appended. -/
theorem apply_provider_spec (r c : Row) (now : ℚ) :
    (apply_last_good_fallback r c now).provider = r.provider ∨
    ∃ base : String, occList lastGoodTag.toList base.toList = 0 ∧
      (apply_last_good_fallback r c now).provider =
        some (base ++ " " ++ lastGoodTag) := by
  have hprov : ∀ ok1 ok2,
      (fillDir (fillGust (fillSpd (fillDew (fillTemp (fillElev r c) c ok1).1 c
        ok1).1 c ok2).1 c ok2).1 c ok2).1.provider = r.provider := by
    intro ok1 ok2
    simp only [fillDir_provider, fillGust_provider, fillSpd_provider,
      fillDew_provider, fillTemp_provider, fillElev_provider]
  simp only [apply_last_good_fallback]
  split
  · split
    · left
      exact hprov _ _
    · next hnc =>
      right
      refine ⟨_, ?_, rfl⟩
      have : ¬ (0 < occList lastGoodTag.toList
          ((orStr (fillDir (fillGust (fillSpd (fillDew (fillTemp (fillElev r c) c
            (within_grace c.temp_ob_time now)).1 c (within_grace c.temp_ob_time now)).1 c
            (within_grace c.wind_ob_time now)).1 c (within_grace c.wind_ob_time now)).1 c
            (within_grace c.wind_ob_time now)).1.provider
            (orStr c.provider "cache")).toList)) := by
        intro hpos
        exact hnc (by simpa [pyContains] using hpos)
      omega
  · left
    exact hprov _ _

/-- One cache-fallback application keeps the tag count at or below
`max 1` of the input's tag count. -/
theorem apply_tag_count_le (r c : Row) (now : ℚ)
    (h : occList lastGoodTag.toList ((r.provider.getD "").toList) ≤ 1) :
    occList lastGoodTag.toList
      (((apply_last_good_fallback r c now).provider.getD "").toList) ≤ 1 := by
  rcases apply_provider_spec r c now with h1 | ⟨base, hb0, h1⟩
  · rw [h1]
    exact h
  · rw [h1]
    have : ((some (base ++ " " ++ lastGoodTag)).getD "").toList =
        base.toList ++ (" " ++ lastGoodTag).toList := by
      simp only [Option.getD_some]
      rw [String.append_assoc]
      exact String.data_append base (" " ++ lastGoodTag)
    rw [this, occ_append_tag base.toList hb0]

/-- C6 (corrected, amended): for any row whose provider contains at most
one occurrence of `"(last-good)"` — in particular every row the pipeline
itself produces — applying `apply_last_good_fallback` twice in succession,
with any cached rows and reference times, yields a provider with at most
one occurrence of the tag; moreover whenever an application changes the
provider at all, it sets it to a tag-free base plus a single appended
`" (last-good)"`. -/
theorem last_good_tag_at_most_one (r c1 c2 : Row) (n1 n2 : ℚ)
    (h : occList lastGoodTag.toList ((r.provider.getD "").toList) ≤ 1) :
    occList lastGoodTag.toList
      (((apply_last_good_fallback (apply_last_good_fallback r c1 n1) c2
        n2).provider.getD "").toList) ≤ 1 ∧
    (∀ (rr cc : Row) (nn : ℚ),
      (apply_last_good_fallback rr cc nn).provider ≠ rr.provider →
      ∃ base : String, occList lastGoodTag.toList base.toList = 0 ∧
        (apply_last_good_fallback rr cc nn).provider =
          some (base ++ " " ++ lastGoodTag)) := by
  constructor
  · exact apply_tag_count_le _ c2 n2 (apply_tag_count_le r c1 n1 h)
  · intro rr cc nn hne
    rcases apply_provider_spec rr cc nn with h1 | h1
    · exact absurd h1 hne
    · exact h1

/-- Witness for C6 (amended) at a concrete row with an untagged provider. -/
theorem last_good_tag_at_most_one_witness :
    occList lastGoodTag.toList
      (((apply_last_good_fallback (apply_last_good_fallback exStaleTimeRow
        exCachedRow exNow) exCachedRow exNow).provider.getD "").toList) ≤ 1 ∧
    (∀ (rr cc : Row) (nn : ℚ),
      (apply_last_good_fallback rr cc nn).provider ≠ rr.provider →
      ∃ base : String, occList lastGoodTag.toList base.toList = 0 ∧
        (apply_last_good_fallback rr cc nn).provider =
          some (base ++ " " ++ lastGoodTag)) :=
  last_good_tag_at_most_one exStaleTimeRow exCachedRow exCachedRow exNow exNow
    (by with_unfolding_all decide)

/-- C6 counterexample: on a row whose provider already carries two
`"(last-good)"` occurrences, two applications still return a provider with
two occurrences, so the claim as stated (over arbitrary rows) fails. -/
theorem last_good_double_tag_cex :
    occList lastGoodTag.toList ((exDoubleTagRow.provider.getD "").toList) = 2 ∧
    (apply_last_good_fallback (apply_last_good_fallback exDoubleTagRow
      exCachedRow exNow) exCachedRow exNow).provider =
      some "MADIS (last-good) (last-good)" ∧
    occList lastGoodTag.toList
      (((apply_last_good_fallback (apply_last_good_fallback exDoubleTagRow
        exCachedRow exNow) exCachedRow exNow).provider.getD "").toList) = 2 := by
  with_unfolding_all decide

/-! ### C10: wind-barb speed decomposition -/

theorem consume50_eq (rem : ℕ) : consume50 rem = (rem / 50, rem % 50) := by
  induction rem using Nat.strong_induction_on with
  | _ rem ih =>
    rw [consume50]
    split
    · next h =>
      rw [ih (rem - 50) (by omega)]
      simp only [Prod.mk.injEq]
      constructor <;> omega
    · next h =>
      simp only [Prod.mk.injEq]
      constructor <;> omega

theorem consume10_eq (rem : ℕ) : consume10 rem = (rem / 10, rem % 10) := by
  induction rem using Nat.strong_induction_on with
  | _ rem ih =>
    rw [consume10]
    split
    · next h =>
      rw [ih (rem - 10) (by omega)]
      simp only [Prod.mk.injEq]
      constructor <;> omega
    · next h =>
      simp only [Prod.mk.injEq]
      constructor <;> omega

theorem pyRound_nonneg (x : ℚ) (hx : 0 ≤ x) : 0 ≤ pyRound x := by
  simp only [pyRound]
  have h0 : (0 : ℤ) ≤ ⌊x⌋ := Int.floor_nonneg.mpr hx
  split
  · exact h0
  · split
    · omega
    · split <;> omega

theorem pyRound_close (x : ℚ) : |((pyRound x : ℤ) : ℚ) - x| ≤ 1 / 2 := by
  simp only [pyRound]
  have h1 : ((⌊x⌋ : ℤ) : ℚ) ≤ x := Int.floor_le x
  have h2 : x < ((⌊x⌋ : ℤ) : ℚ) + 1 := Int.lt_floor_add_one x
  split
  · next h =>
    rw [abs_le]
    constructor <;> linarith
  · next h =>
    push_neg at h
    split
    · next h' =>
      rw [abs_le]
      push_cast
      constructor <;> linarith
    · next h' =>
      push_neg at h'
      have he : x - ((⌊x⌋ : ℤ) : ℚ) = 1 / 2 := le_antisymm h' h
      split
      · rw [abs_le]
        constructor <;> linarith
      · rw [abs_le]
        push_cast
        constructor <;> linarith

/-- C10: for every direction and non-negative speed, `wind_barb_svg` rounds
the knot speed to the nearest multiple of 5 and decomposes it exactly as
`50·flags + 10·feathers + 5·half` with at most one half feather; a rounded
speed of zero yields only the calm circle (no shaft), and a positive one a
shaft with no calm circle. -/
theorem wind_barb_decomposition (d s : ℚ) (hs : 0 ≤ s) :
    (50 * ((wind_barb_svg (some d) (some s)).count Glyph.flag : ℤ) +
      10 * ((wind_barb_svg (some d) (some s)).count Glyph.feather : ℤ) +
      5 * ((wind_barb_svg (some d) (some s)).count Glyph.half : ℤ) =
      5 * pyRound (max 0 (s * KTS_PER_MPS) / 5)) ∧
    (wind_barb_svg (some d) (some s)).count Glyph.half ≤ 1 ∧
    (5 * pyRound (max 0 (s * KTS_PER_MPS) / 5)) % 5 = 0 ∧
    |((5 * pyRound (max 0 (s * KTS_PER_MPS) / 5) : ℤ) : ℚ) -
      max 0 (s * KTS_PER_MPS)| ≤ 5 / 2 ∧
    (5 * pyRound (max 0 (s * KTS_PER_MPS) / 5) = 0 →
      wind_barb_svg (some d) (some s) = [Glyph.calm]) ∧
    (0 < 5 * pyRound (max 0 (s * KTS_PER_MPS) / 5) →
      Glyph.shaft ∈ wind_barb_svg (some d) (some s) ∧
      (wind_barb_svg (some d) (some s)).count Glyph.calm = 0) := by
  have hkt : (0 : ℚ) ≤ max 0 (s * KTS_PER_MPS) := le_max_left 0 _
  have hr : (0 : ℤ) ≤ pyRound (max 0 (s * KTS_PER_MPS) / 5) :=
    pyRound_nonneg _ (by positivity)
  have hclose : |((5 * pyRound (max 0 (s * KTS_PER_MPS) / 5) : ℤ) : ℚ) -
      max 0 (s * KTS_PER_MPS)| ≤ 5 / 2 := by
    have h5 := pyRound_close (max 0 (s * KTS_PER_MPS) / 5)
    have heq : ((5 * pyRound (max 0 (s * KTS_PER_MPS) / 5) : ℤ) : ℚ) -
        max 0 (s * KTS_PER_MPS) =
        5 * (((pyRound (max 0 (s * KTS_PER_MPS) / 5) : ℤ) : ℚ) -
          max 0 (s * KTS_PER_MPS) / 5) := by
      push_cast
      ring
    rw [heq, abs_mul, abs_of_nonneg (by norm_num : (0:ℚ) ≤ 5)]
    linarith
  simp only [wind_barb_svg]
  split
  · next hle =>
    have hb0 : 5 * pyRound (max 0 (s * KTS_PER_MPS) / 5) = 0 := by omega
    refine ⟨?_, ?_, by omega, hclose, fun _ => rfl, ?_⟩
    · simp [hb0]
    · simp
    · intro hpos
      omega
  · next hgt =>
    push_neg at hgt
    set n := (5 * pyRound (max 0 (s * KTS_PER_MPS) / 5)).toNat with hn
    have hnval : (n : ℤ) = 5 * pyRound (max 0 (s * KTS_PER_MPS) / 5) := by
      rw [hn]
      omega
    have hdvd : n % 5 = 0 := by omega
    simp only [consume50_eq, consume10_eq]
    by_cases hhl : 5 ≤ n % 50 % 10
    · refine ⟨?_, ?_, by omega, hclose, by omega, ?_⟩
      · rw [← hnval]
        simp [List.count_cons, List.count_append, List.count_replicate, hhl]
        omega
      · simp [List.count_cons, List.count_append, List.count_replicate, hhl]
      · intro _
        refine ⟨List.mem_cons_self _ _, ?_⟩
        simp [List.count_cons, List.count_append, List.count_replicate, hhl]
    · refine ⟨?_, ?_, by omega, hclose, by omega, ?_⟩
      · rw [← hnval]
        simp [List.count_cons, List.count_append, List.count_replicate, hhl]
        omega
      · simp [List.count_cons, List.count_append, List.count_replicate, hhl]
      · intro _
        refine ⟨List.mem_cons_self _ _, ?_⟩
        simp [List.count_cons, List.count_append, List.count_replicate, hhl]

/-- Witness for C10 at 10 m/s (19.4384 kt, rounding to 20 kt). -/
theorem wind_barb_decomposition_witness :
    (50 * ((wind_barb_svg (some 90) (some 10)).count Glyph.flag : ℤ) +
      10 * ((wind_barb_svg (some 90) (some 10)).count Glyph.feather : ℤ) +
      5 * ((wind_barb_svg (some 90) (some 10)).count Glyph.half : ℤ) =
      5 * pyRound (max 0 (10 * KTS_PER_MPS) / 5)) ∧
    (wind_barb_svg (some 90) (some 10)).count Glyph.half ≤ 1 ∧
    (5 * pyRound (max 0 (10 * KTS_PER_MPS) / 5)) % 5 = 0 ∧
    |((5 * pyRound (max 0 (10 * KTS_PER_MPS) / 5) : ℤ) : ℚ) -
      max 0 (10 * KTS_PER_MPS)| ≤ 5 / 2 ∧
    (5 * pyRound (max 0 (10 * KTS_PER_MPS) / 5) = 0 →
      wind_barb_svg (some 90) (some 10) = [Glyph.calm]) ∧
    (0 < 5 * pyRound (max 0 (10 * KTS_PER_MPS) / 5) →
      Glyph.shaft ∈ wind_barb_svg (some 90) (some 10) ∧
      (wind_barb_svg (some 90) (some 10)).count Glyph.calm = 0) :=
  wind_barb_decomposition 90 10 (by norm_num)

/-! ### List and order helpers -/

theorem listMin_le (xs : List ℚ) : ∀ x : ℚ, listMin x xs ≤ x ∧ ∀ a ∈ xs, listMin x xs ≤ a := by
  induction xs with
  | nil => exact fun x => ⟨le_refl x, by simp⟩
  | cons b t ih =>
    intro x
    have h := ih (min x b)
    refine ⟨h.1.trans (min_le_left x b), ?_⟩
    intro a ha
    rcases List.mem_cons.mp ha with rfl | ha
    · exact h.1.trans (min_le_right x a)
    · exact h.2 a ha

theorem listMin_mem (xs : List ℚ) : ∀ x : ℚ, listMin x xs = x ∨ listMin x xs ∈ xs := by
  induction xs with
  | nil => exact fun x => Or.inl rfl
  | cons b t ih =>
    intro x
    have hfold : listMin x (b :: t) = listMin (min x b) t := by
      simp only [listMin, List.foldl_cons]
    rcases ih (min x b) with h | h
    · rcases min_choice x b with hm | hm
      · exact Or.inl (by rw [hfold, h, hm])
      · exact Or.inr (List.mem_cons.mpr (Or.inl (by rw [hfold, h, hm])))
    · exact Or.inr (List.mem_cons.mpr (Or.inr (by rw [hfold]; exact h)))

theorem listMax_le (xs : List ℚ) : ∀ x : ℚ, x ≤ listMax x xs ∧ ∀ a ∈ xs, a ≤ listMax x xs := by
  induction xs with
  | nil => exact fun x => ⟨le_refl x, by simp⟩
  | cons b t ih =>
    intro x
    have h := ih (max x b)
    refine ⟨(le_max_left x b).trans h.1, ?_⟩
    intro a ha
    rcases List.mem_cons.mp ha with rfl | ha
    · exact (le_max_right x a).trans h.1
    · exact h.2 a ha

theorem listMax_mem (xs : List ℚ) : ∀ x : ℚ, listMax x xs = x ∨ listMax x xs ∈ xs := by
  induction xs with
  | nil => exact fun x => Or.inl rfl
  | cons b t ih =>
    intro x
    have hfold : listMax x (b :: t) = listMax (max x b) t := by
      simp only [listMax, List.foldl_cons]
    rcases ih (max x b) with h | h
    · rcases max_choice x b with hm | hm
      · exact Or.inl (by rw [hfold, h, hm])
      · exact Or.inr (List.mem_cons.mpr (Or.inl (by rw [hfold, h, hm])))
    · exact Or.inr (List.mem_cons.mpr (Or.inr (by rw [hfold]; exact h)))

theorem getLastD_cons_ne {α : Type} (x : α) (t : List α) (d : α) (h : t ≠ []) :
    (x :: t).getLastD d = t.getLastD d := by
  cases t with
  | nil => exact absurd rfl h
  | cons y u => rfl

theorem getLastD_mem {α : Type} : ∀ (l : List α) (d : α), l ≠ [] → l.getLastD d ∈ l := by
  intro l
  induction l with
  | nil => intro d h; exact absurd rfl h
  | cons x t ih =>
    intro d _
    cases ht : t with
    | nil => subst ht; exact List.mem_singleton.mpr rfl
    | cons y u =>
      subst ht
      rw [getLastD_cons_ne x (y :: u) d (by simp)]
      exact List.mem_cons.mpr (Or.inr (ih d (by simp)))

theorem sorted_headD_le (l : List (ℚ × ℚ))
    (hs : List.Sorted (fun a b : ℚ × ℚ => a.1 ≤ b.1) l) :
    ∀ p ∈ l, (l.headD (0, 0)).1 ≤ p.1 := by
  cases l with
  | nil => simp
  | cons x t =>
    intro p hp
    rcases List.mem_cons.mp hp with rfl | hp
    · exact le_refl _
    · exact (List.pairwise_cons.mp hs).1 p hp

theorem sorted_le_getLastD (l : List (ℚ × ℚ))
    (hs : List.Sorted (fun a b : ℚ × ℚ => a.1 ≤ b.1) l) :
    ∀ p ∈ l, p.1 ≤ (l.getLastD (0, 0)).1 := by
  induction l with
  | nil => simp
  | cons x t ih =>
    intro p hp
    cases ht : t with
    | nil =>
      subst ht
      rcases List.mem_singleton.mp hp with rfl
      exact le_refl _
    | cons y u =>
      subst ht
      rw [getLastD_cons_ne x (y :: u) (0, 0) (by simp)]
      have htail : List.Sorted (fun a b : ℚ × ℚ => a.1 ≤ b.1) (y :: u) :=
        (List.pairwise_cons.mp hs).2
      rcases List.mem_cons.mp hp with rfl | hp
      · have hmem : (y :: u).getLastD (0, 0) ∈ y :: u :=
          getLastD_mem (y :: u) (0, 0) (by simp)
        exact (List.pairwise_cons.mp hs).1 _ hmem
      · exact ih htail p hp

/-! ### C8: altitude-domain computation of the renderer -/

/-- C8 (corrected, amended): with at least one plotted station carrying an
elevation, the altitude domain of `draw_svg` is
`[⌊min{0, first profile altitude, elevations}/100⌋·100,
⌈max{last profile altitude, elevations}/100⌉·100]` (for an
altitude-sorted profile these are the profile min/max), and since both
endpoints are multiples of 100 the `y_max ≤ y_min` bump yields a span of
at least 100.  With no such station the domain is `[0, last profile
altitude]` — unrounded and not the profile's own altitude range — bumped
only when `y_max ≤ y_min`, so it can span fewer than 100 units. -/
theorem draw_svg_y_domain_spec (rass : List (ℚ × ℚ)) (stations : List Row)
    (hne : rass ≠ [])
    (hsort : List.Sorted (fun a b : ℚ × ℚ => a.1 ≤ b.1) rass) :
    ((stations.filterMap (fun s => s.elev_m)) ≠ [] →
      ∃ mn mx : ℚ,
        mn = listMin 0 ((rass.headD (0, 0)).1 ::
          stations.filterMap (fun s => s.elev_m)) ∧
        mx = listMax (rass.getLastD (0, 0)).1
          (stations.filterMap (fun s => s.elev_m)) ∧
        mn ≤ 0 ∧ (∀ p ∈ rass, mn ≤ p.1) ∧
        (∀ a ∈ stations.filterMap (fun s => s.elev_m), mn ≤ a) ∧
        (mn = 0 ∨ mn ∈ rass.map Prod.fst ∨
          mn ∈ stations.filterMap (fun s => s.elev_m)) ∧
        (∀ p ∈ rass, p.1 ≤ mx) ∧
        (∀ a ∈ stations.filterMap (fun s => s.elev_m), a ≤ mx) ∧
        (mx ∈ rass.map Prod.fst ∨
          mx ∈ stations.filterMap (fun s => s.elev_m)) ∧
        draw_svg_y_domain rass stations =
          (if ((⌈mx / 100⌉ * 100 : ℤ) : ℚ) ≤ ((⌊mn / 100⌋ * 100 : ℤ) : ℚ)
            then (((⌊mn / 100⌋ * 100 : ℤ) : ℚ), ((⌊mn / 100⌋ * 100 : ℤ) : ℚ) + 100)
            else (((⌊mn / 100⌋ * 100 : ℤ) : ℚ), ((⌈mx / 100⌉ * 100 : ℤ) : ℚ))) ∧
        100 ≤ (draw_svg_y_domain rass stations).2 -
          (draw_svg_y_domain rass stations).1) ∧
    ((stations.filterMap (fun s => s.elev_m)) = [] →
      draw_svg_y_domain rass stations =
        (0, if (rass.getLastD (0, 0)).1 ≤ 0 then (0 : ℚ) + 100
            else (rass.getLastD (0, 0)).1)) := by
  constructor
  · intro halts
    set alts := stations.filterMap (fun s => s.elev_m) with halts_def
    set mn := listMin 0 ((rass.headD (0, 0)).1 :: alts) with hmn
    set mx := listMax (rass.getLastD (0, 0)).1 alts with hmx
    have hminle := listMin_le ((rass.headD (0, 0)).1 :: alts) 0
    have hminmem := listMin_mem ((rass.headD (0, 0)).1 :: alts) 0
    have hmaxle := listMax_le alts (rass.getLastD (0, 0)).1
    have hmaxmem := listMax_mem alts (rass.getLastD (0, 0)).1
    have hheadmem : rass.headD (0, 0) ∈ rass := by
      cases rass with
      | nil => exact absurd rfl hne
      | cons x t => exact List.mem_cons_self x t
    have hlastmem : rass.getLastD (0, 0) ∈ rass := getLastD_mem rass (0, 0) hne
    rw [← hmn] at hminle hminmem
    rw [← hmx] at hmaxle hmaxmem
    have hdom : draw_svg_y_domain rass stations =
        (if ((⌈mx / 100⌉ * 100 : ℤ) : ℚ) ≤ ((⌊mn / 100⌋ * 100 : ℤ) : ℚ)
          then (((⌊mn / 100⌋ * 100 : ℤ) : ℚ), ((⌊mn / 100⌋ * 100 : ℤ) : ℚ) + 100)
          else (((⌊mn / 100⌋ * 100 : ℤ) : ℚ), ((⌈mx / 100⌉ * 100 : ℤ) : ℚ))) := by
      simp only [draw_svg_y_domain, ← halts_def, if_pos halts, ← hmn, ← hmx]
    refine ⟨mn, mx, rfl, rfl, hminle.1, ?_, fun a ha => hminle.2 a (List.mem_cons.mpr (Or.inr ha)), ?_, ?_, fun a ha => hmaxle.2 a ha, ?_, hdom, ?_⟩
    · intro p hp
      exact (hminle.2 _ (List.mem_cons_self _ _)).trans (sorted_headD_le rass hsort p hp)
    · rcases hminmem with h | h
      · exact Or.inl h
      · rcases List.mem_cons.mp h with h' | h'
        · exact Or.inr (Or.inl (by rw [h']; exact List.mem_map.mpr ⟨_, hheadmem, rfl⟩))
        · exact Or.inr (Or.inr h')
    · intro p hp
      exact (sorted_le_getLastD rass hsort p hp).trans hmaxle.1
    · rcases hmaxmem with h | h
      · exact Or.inl (by rw [h]; exact List.mem_map.mpr ⟨_, hlastmem, rfl⟩)
      · exact Or.inr h
    · rw [hdom]
      have hfl : ((⌊mn / 100⌋ * 100 : ℤ) : ℚ) ≤ mn * 1 := by
        have := Int.floor_le (mn / 100)
        push_cast
        nlinarith [this]
      split
      · next hle => simp
      · next hgt =>
        push_neg at hgt
        have hcast : (⌊mn / 100⌋ * 100 : ℤ) < (⌈mx / 100⌉ * 100 : ℤ) := by
          exact_mod_cast hgt
        have : (⌊mn / 100⌋ * 100 : ℤ) + 100 ≤ (⌈mx / 100⌉ * 100 : ℤ) := by omega
        have : ((⌊mn / 100⌋ * 100 : ℤ) : ℚ) + 100 ≤ ((⌈mx / 100⌉ * 100 : ℤ) : ℚ) := by
          exact_mod_cast this
        simp only []
        linarith
  · intro halts
    simp only [draw_svg_y_domain, halts, if_neg]
    simp only [ne_eq, not_true_eq_false, if_false, List.getLastD_eq_getLast?]
    split <;> simp

/-- Witness for C8 (amended) at a sorted profile and one station with an
elevation. -/
theorem draw_svg_y_domain_spec_witness :
    ((exDomStations.filterMap (fun s => s.elev_m)) ≠ [] →
      ∃ mn mx : ℚ,
        mn = listMin 0 ((exDomProfile.headD (0, 0)).1 ::
          exDomStations.filterMap (fun s => s.elev_m)) ∧
        mx = listMax (exDomProfile.getLastD (0, 0)).1
          (exDomStations.filterMap (fun s => s.elev_m)) ∧
        mn ≤ 0 ∧ (∀ p ∈ exDomProfile, mn ≤ p.1) ∧
        (∀ a ∈ exDomStations.filterMap (fun s => s.elev_m), mn ≤ a) ∧
        (mn = 0 ∨ mn ∈ exDomProfile.map Prod.fst ∨
          mn ∈ exDomStations.filterMap (fun s => s.elev_m)) ∧
        (∀ p ∈ exDomProfile, p.1 ≤ mx) ∧
        (∀ a ∈ exDomStations.filterMap (fun s => s.elev_m), a ≤ mx) ∧
        (mx ∈ exDomProfile.map Prod.fst ∨
          mx ∈ exDomStations.filterMap (fun s => s.elev_m)) ∧
        draw_svg_y_domain exDomProfile exDomStations =
          (if ((⌈mx / 100⌉ * 100 : ℤ) : ℚ) ≤ ((⌊mn / 100⌋ * 100 : ℤ) : ℚ)
            then (((⌊mn / 100⌋ * 100 : ℤ) : ℚ), ((⌊mn / 100⌋ * 100 : ℤ) : ℚ) + 100)
            else (((⌊mn / 100⌋ * 100 : ℤ) : ℚ), ((⌈mx / 100⌉ * 100 : ℤ) : ℚ))) ∧
        100 ≤ (draw_svg_y_domain exDomProfile exDomStations).2 -
          (draw_svg_y_domain exDomProfile exDomStations).1) ∧
    ((exDomStations.filterMap (fun s => s.elev_m)) = [] →
      draw_svg_y_domain exDomProfile exDomStations =
        (0, if (exDomProfile.getLastD (0, 0)).1 ≤ 0 then (0 : ℚ) + 100
            else (exDomProfile.getLastD (0, 0)).1)) :=
  draw_svg_y_domain_spec exDomProfile exDomStations (by decide)
    (by with_unfolding_all decide)

/-- C8 counterexample: with no eligible station, the code sets the domain
to `[0, last altitude]` — for a profile from 20 m to 70 m this is `[0, 70]`,
which neither collapses to the profile's own range (its lower end is 0,
not 20) nor spans at least 100 units. -/
theorem draw_svg_y_domain_cex :
    draw_svg_y_domain exShortProfile [] = (0, 70) ∧
    (0 : ℚ) ≠ 20 ∧ (70 : ℚ) - 0 < 100 := by
  with_unfolding_all decide

/-! ### C5: a successful parse can produce an empty resampled profile -/

/-- C5: there is an input accepted by `parse_rass` — it has the `HT` header
and two valid points, so parsing succeeds — whose resampled output is
empty, because both altitudes lie strictly inside one 100 m band and
`ceil(min/100)·100 > floor(max/100)·100`; and the `rass_points[0]` read at
the top of `draw_svg` has no value on an empty profile (the modelled
`IndexError`), so a successful parse does not guarantee the renderer's
precondition. -/
theorem parse_rass_empty_resample_unsafe :
    parse_rass exBandLines = some (none, []) ∧
    parse_rass_points exBandLines = some [(30, 10), (70, 11)] ∧
    (⌈(30 : ℚ) / 100⌉ * 100 : ℤ) > ⌊(70 : ℚ) / 100⌋ * 100 ∧
    draw_svg_anchor ([] : List (ℚ × ℚ)) = none := by
  with_unfolding_all decide

/-! ### C1: the resampling grid and interpolation exactness -/

instance : IsTrans (ℚ × ℚ) (fun a b : ℚ × ℚ => a.1 ≤ b.1) :=
  ⟨fun _ _ _ => le_trans⟩

instance : IsTotal (ℚ × ℚ) (fun a b : ℚ × ℚ => a.1 ≤ b.1) :=
  ⟨fun a b => le_total a.1 b.1⟩

theorem sortPoints_sorted (l : List (ℚ × ℚ)) :
    List.Sorted (fun a b : ℚ × ℚ => a.1 ≤ b.1) (sortPoints l) :=
  List.sorted_insertionSort _ l

theorem sortPoints_perm (l : List (ℚ × ℚ)) : (sortPoints l).Perm l :=
  List.perm_insertionSort _ l

theorem keyAt_eq_get (pts : List (ℚ × ℚ)) (i : ℕ) (h : i < pts.length) :
    keyAt pts i = (pts.get ⟨i, h⟩).1 := by
  unfold keyAt
  rw [List.getD_eq_getElem?_getD, List.getElem?_eq_getElem h]
  rfl

theorem tempAt_eq_get (pts : List (ℚ × ℚ)) (i : ℕ) (h : i < pts.length) :
    tempAt pts i = (pts.get ⟨i, h⟩).2 := by
  unfold tempAt
  rw [List.getD_eq_getElem?_getD, List.getElem?_eq_getElem h]
  rfl

theorem keyAt_le_keyAt (pts : List (ℚ × ℚ))
    (hs : List.Sorted (fun a b : ℚ × ℚ => a.1 ≤ b.1) pts)
    (i j : ℕ) (hij : i ≤ j) (hj : j < pts.length) :
    keyAt pts i ≤ keyAt pts j := by
  rcases Nat.eq_or_lt_of_le hij with rfl | hlt
  · exact le_refl _
  · rw [keyAt_eq_get pts i (by omega), keyAt_eq_get pts j hj]
    exact List.Sorted.rel_get_of_lt hs hlt

theorem keyAt_lt_keyAt (pts : List (ℚ × ℚ))
    (hs : List.Sorted (fun a b : ℚ × ℚ => a.1 ≤ b.1) pts)
    (hnd : (pts.map Prod.fst).Nodup)
    (i j : ℕ) (hij : i < j) (hj : j < pts.length) :
    keyAt pts i < keyAt pts j := by
  have hle := keyAt_le_keyAt pts hs i j (le_of_lt hij) hj
  rcases lt_or_eq_of_le hle with h | h
  · exact h
  · exfalso
    have hi : i < pts.length := by omega
    have hmi : i < (pts.map Prod.fst).length := by simpa using hi
    have hmj : j < (pts.map Prod.fst).length := by simpa using hj
    have hgets : (pts.map Prod.fst).get ⟨i, hmi⟩ = (pts.map Prod.fst).get ⟨j, hmj⟩ := by
      rw [List.get_map, List.get_map]
      rw [keyAt_eq_get pts i hi, keyAt_eq_get pts j hj] at h
      exact h
    have := (List.Nodup.get_inj_iff hnd).mp hgets
    have : i = j := congrArg Fin.val this
    omega

theorem advancePtrAux_spec (pts : List (ℚ × ℚ)) (alt : ℚ) :
    ∀ (fuel j : ℕ), pts.length - 2 - j ≤ fuel →
      j ≤ advancePtrAux pts alt fuel j ∧
      advancePtrAux pts alt fuel j ≤ max j (pts.length - 2) ∧
      (keyAt pts j ≤ alt → keyAt pts (advancePtrAux pts alt fuel j) ≤ alt) ∧
      ¬(advancePtrAux pts alt fuel j < pts.length - 2 ∧
        keyAt pts (advancePtrAux pts alt fuel j + 1) < alt) := by
  intro fuel
  induction fuel with
  | zero =>
    intro j hfuel
    refine ⟨le_refl j, le_max_left _ _, fun h => h, ?_⟩
    rintro ⟨hlt, _⟩
    simp only [advancePtrAux] at hlt
    omega
  | succ fuel ih =>
    intro j hfuel
    show _ ∧ _
    rw [advancePtrAux]
    split
    · next hcond =>
      have hrec := ih (j + 1) (by omega)
      refine ⟨by omega, ?_, fun _ => hrec.2.2.1 (le_of_lt hcond.2), hrec.2.2.2⟩
      have := hrec.2.1
      have hj1 : j + 1 ≤ pts.length - 2 := by omega
      rw [Nat.max_eq_right hj1] at this
      exact this.trans (le_max_right _ _)
    · next hcond =>
      push_neg at hcond
      refine ⟨le_refl j, le_max_left _ _, fun h => h, ?_⟩
      rintro ⟨hlt, hkey⟩
      exact absurd hkey (not_lt.mpr (hcond hlt))

theorem advancePtr_spec (pts : List (ℚ × ℚ)) (alt : ℚ) (j : ℕ) :
    j ≤ advancePtr pts alt j ∧
    advancePtr pts alt j ≤ max j (pts.length - 2) ∧
    (keyAt pts j ≤ alt → keyAt pts (advancePtr pts alt j) ≤ alt) ∧
    ¬(advancePtr pts alt j < pts.length - 2 ∧
      keyAt pts (advancePtr pts alt j + 1) < alt) :=
  advancePtrAux_spec pts alt (pts.length - 2 - j) j (le_refl _)

/-- At a grid altitude equal to a sample altitude, with pairwise-distinct
sample altitudes, the bracketing interpolation returns that sample's
temperature exactly. -/
theorem interp_exact (pts : List (ℚ × ℚ))
    (hs : List.Sorted (fun a b : ℚ × ℚ => a.1 ≤ b.1) pts)
    (hnd : (pts.map Prod.fst).Nodup)
    (alt : ℚ) (j : ℕ) (hlen : 2 ≤ pts.length) (hj : j ≤ pts.length - 2)
    (hk : keyAt pts j ≤ alt)
    (hstop : ¬(j < pts.length - 2 ∧ keyAt pts (j + 1) < alt))
    (hlast : alt ≤ keyAt pts (pts.length - 1))
    (k : ℕ) (hkk : k < pts.length) (heq : keyAt pts k = alt) :
    interpAt pts alt j = tempAt pts k := by
  have hj1 : j + 1 < pts.length := by omega
  have hup : alt ≤ keyAt pts (j + 1) := by
    rcases Nat.lt_or_ge j (pts.length - 2) with hlt | hge
    · by_contra hcon
      push_neg at hcon
      exact hstop ⟨hlt, hcon⟩
    · have hj2 : j + 1 = pts.length - 1 := by omega
      rw [hj2]
      exact hlast
  have hkj1 : keyAt pts j < keyAt pts (j + 1) :=
    keyAt_lt_keyAt pts hs hnd j (j + 1) (by omega) hj1
  rcases lt_trichotomy k j with hkj | hkj | hkj
  · exfalso
    have := keyAt_lt_keyAt pts hs hnd k j hkj (by omega)
    rw [heq] at this
    linarith
  · subst hkj
    simp only [interpAt]
    rw [if_neg (ne_of_gt hkj1)]
    have hz : alt - keyAt pts k = 0 := by rw [← heq]; ring
    rw [hz]
    simp
  · have hk1 : k = j + 1 := by
      by_contra hne
      have hgt : j + 1 < k := by omega
      have := keyAt_lt_keyAt pts hs hnd (j + 1) k hgt hkk
      rw [heq] at this
      linarith
    subst hk1
    simp only [interpAt]
    rw [if_neg (ne_of_gt hkj1)]
    have hsub : alt - keyAt pts j = keyAt pts (j + 1) - keyAt pts j := by rw [heq]
    rw [hsub, mul_div_assoc,
      div_self (by intro hzero; apply ne_of_gt hkj1; linarith :
        keyAt pts (j + 1) - keyAt pts j ≠ 0), mul_one]
    ring

theorem resampleLoop_fst (pts : List (ℚ × ℚ)) :
    ∀ (grid : List ℤ) (j : ℕ), (resampleLoop pts grid j).map Prod.fst = grid := by
  intro grid
  induction grid with
  | nil => intro j; rfl
  | cons alt rest ih =>
    intro j
    simp only [resampleLoop, List.map_cons]
    rw [ih]

theorem resampleLoop_exact (pts : List (ℚ × ℚ))
    (hs : List.Sorted (fun a b : ℚ × ℚ => a.1 ≤ b.1) pts)
    (hnd : (pts.map Prod.fst).Nodup) (hlen : 2 ≤ pts.length) :
    ∀ (grid : List ℤ) (j : ℕ),
      j ≤ pts.length - 2 →
      (∀ a ∈ grid, keyAt pts j ≤ (a : ℚ)) →
      (∀ a ∈ grid, (a : ℚ) ≤ keyAt pts (pts.length - 1)) →
      List.Pairwise (fun a b : ℤ => a ≤ b) grid →
      ∀ q ∈ resampleLoop pts grid j, ∀ k, k < pts.length →
        keyAt pts k = (q.1 : ℚ) → q.2 = tempAt pts k := by
  intro grid
  induction grid with
  | nil =>
    intro j _ _ _ _ q hq
    cases hq
  | cons alt rest ih =>
    intro j hj hlow hhigh hpw q hq k hkk hkey
    obtain ⟨hge, hle, hkey', hstop⟩ := advancePtr_spec pts (alt : ℚ) j
    have hj' : advancePtr pts (alt : ℚ) j ≤ pts.length - 2 := by
      rw [Nat.max_eq_right hj] at hle
      exact hle
    have hkj' : keyAt pts (advancePtr pts (alt : ℚ) j) ≤ (alt : ℚ) :=
      hkey' (hlow alt (List.mem_cons_self _ _))
    rcases List.mem_cons.mp hq with rfl | hq'
    · exact interp_exact pts hs hnd (alt : ℚ) _ hlen hj' hkj' hstop
        (hhigh alt (List.mem_cons_self _ _)) k hkk hkey
    · refine ih (advancePtr pts (alt : ℚ) j) hj' ?_
        (fun a ha => hhigh a (List.mem_cons.mpr (Or.inr ha)))
        (List.pairwise_cons.mp hpw).2 q hq' k hkk hkey
      intro a ha
      have halta : alt ≤ a := (List.pairwise_cons.mp hpw).1 a ha
      have : ((alt : ℤ) : ℚ) ≤ ((a : ℤ) : ℚ) := by exact_mod_cast halta
      exact hkj'.trans this

theorem altGrid_get (lo hi : ℤ) (k : ℕ) (h : k < (altGrid lo hi).length) :
    (altGrid lo hi).get ⟨k, h⟩ = lo + 100 * (k : ℤ) := by
  simp only [altGrid]
  rw [List.get_map]
  simp [List.get_range]

theorem mem_altGrid (lo hi z : ℤ) (hlo : 100 ∣ lo) (hhi : 100 ∣ hi) :
    z ∈ altGrid lo hi ↔ 100 ∣ z ∧ lo ≤ z ∧ z ≤ hi := by
  obtain ⟨a, rfl⟩ := hlo
  obtain ⟨b, rfl⟩ := hhi
  simp only [altGrid, List.mem_map, List.mem_range]
  unfold gridCount
  rcases lt_or_ge (100 * b) (100 * a) with hba | hba
  · rw [if_pos hba]
    constructor
    · rintro ⟨k, hk, rfl⟩
      exact absurd hk (by omega)
    · rintro ⟨_, h1, h2⟩
      exact absurd hba (by omega)
  · rw [if_neg (not_lt.mpr hba)]
    have hn : (100 * b - 100 * a).toNat = 100 * (b - a).toNat := by omega
    rw [hn, Nat.mul_div_cancel_left _ (by norm_num)]
    constructor
    · rintro ⟨k, hk, rfl⟩
      refine ⟨⟨a + (k : ℤ), by ring⟩, by omega, by omega⟩
    · rintro ⟨⟨c, rfl⟩, h1, h2⟩
      refine ⟨(c - a).toNat, by omega, by omega⟩

theorem altGrid_chain (lo hi : ℤ) :
    List.Chain' (fun a b : ℤ => a + 100 = b) (altGrid lo hi) := by
  rw [List.chain'_iff_get]
  intro i h
  rw [altGrid_get, altGrid_get]
  push_cast
  ring

theorem altGrid_pairwise (lo hi : ℤ) :
    List.Pairwise (fun a b : ℤ => a ≤ b) (altGrid lo hi) := by
  rw [List.pairwise_iff_get]
  intro a b hab
  rw [altGrid_get lo hi a a.isLt, altGrid_get lo hi b b.isLt]
  have hv : (a : ℕ) < (b : ℕ) := hab
  omega

theorem keyAt_zero (pts : List (ℚ × ℚ)) : keyAt pts 0 = (pts.headD (0, 0)).1 := by
  cases pts <;> rfl

theorem keyAt_succ (x : ℚ × ℚ) (t : List (ℚ × ℚ)) (n : ℕ) :
    keyAt (x :: t) (n + 1) = keyAt t n := rfl

theorem keyAt_last (pts : List (ℚ × ℚ)) (h : pts ≠ []) :
    keyAt pts (pts.length - 1) = (pts.getLastD (0, 0)).1 := by
  induction pts with
  | nil => exact absurd rfl h
  | cons x t ih =>
    cases ht : t with
    | nil => subst ht; rfl
    | cons y u =>
      subst ht
      rw [getLastD_cons_ne x (y :: u) (0, 0) (by simp)]
      have hlen : (x :: y :: u).length - 1 = ((y :: u).length - 1) + 1 := by
        simp
      rw [hlen, keyAt_succ]
      exact ih (by simp)

theorem parse_rass_points_some (lines : List String) (pts : List (ℚ × ℚ))
    (hp : parse_rass_points lines = some pts) :
    2 ≤ pts.length ∧ ∃ body, findHT lines = some body ∧ pts = parseBody body := by
  unfold parse_rass_points at hp
  cases hfind : findHT lines with
  | none => rw [hfind] at hp; cases hp
  | some body =>
    rw [hfind] at hp
    simp only at hp
    split at hp
    · cases hp
    · next hlen =>
      have hpe : pts = parseBody body := (Option.some_inj.mp hp).symm
      subst hpe
      exact ⟨by omega, body, rfl, rfl⟩

/-- C1 (corrected, amended): for every parsed sounding with at least two
valid points — unconditionally — the resampled output of `parse_rass` lists
exactly the multiples of 100 m from `ceil(min_alt/100)·100` to
`floor(max_alt/100)·100` as a contiguous, strictly increasing arithmetic
sequence with step 100 (`rassLo`/`rassHi` of the sorted points, whose head
and last are the min and max sample altitudes); and — provided the sample
altitudes are pairwise distinct, a premise of this final conjunct only —
whenever a grid altitude equals an original sample's altitude, the
interpolated temperature there equals that sample's temperature exactly. -/
theorem parse_rass_resample_grid_exact (lines : List String)
    (pts : List (ℚ × ℚ)) (hp : parse_rass_points lines = some pts) :
    parse_rass lines = some (obsScan lines, resample pts) ∧
    (resample pts).map Prod.fst =
      altGrid (rassLo (sortPoints pts)) (rassHi (sortPoints pts)) ∧
    (∀ z : ℤ, z ∈ (resample pts).map Prod.fst ↔
      100 ∣ z ∧ rassLo (sortPoints pts) ≤ z ∧ z ≤ rassHi (sortPoints pts)) ∧
    List.Chain' (fun p q : ℤ × ℚ => p.1 + 100 = q.1) (resample pts) ∧
    ((sortPoints pts).headD (0, 0) ∈ pts ∧
      (sortPoints pts).getLastD (0, 0) ∈ pts ∧
      ∀ p ∈ pts, ((sortPoints pts).headD (0, 0)).1 ≤ p.1 ∧
        p.1 ≤ ((sortPoints pts).getLastD (0, 0)).1) ∧
    ((pts.map Prod.fst).Nodup →
      ∀ p ∈ pts, ∀ q ∈ resample pts, (q.1 : ℚ) = p.1 → q.2 = p.2) := by
  obtain ⟨hlen2, body, hfind, hbody⟩ := parse_rass_points_some lines pts hp
  have hperm := sortPoints_perm pts
  have hsort := sortPoints_sorted pts
  have hlenperm : (sortPoints pts).length = pts.length := hperm.length_eq
  have hlen2' : 2 ≤ (sortPoints pts).length := by omega
  have hne : sortPoints pts ≠ [] := by
    intro h
    rw [h] at hlen2'
    simp at hlen2'
  have hdlo : (100 : ℤ) ∣ rassLo (sortPoints pts) := dvd_mul_left 100 _
  have hdhi : (100 : ℤ) ∣ rassHi (sortPoints pts) := dvd_mul_left 100 _
  have hmapfst : (resample pts).map Prod.fst =
      altGrid (rassLo (sortPoints pts)) (rassHi (sortPoints pts)) := by
    unfold resample
    exact resampleLoop_fst (sortPoints pts) _ 0
  have hmnlo : ((sortPoints pts).headD (0, 0)).1 ≤
      ((rassLo (sortPoints pts) : ℤ) : ℚ) := by
    unfold rassLo
    push_cast
    have hc := Int.le_ceil (((sortPoints pts).headD (0, 0)).1 / 100)
    rw [div_le_iff (by norm_num : (0:ℚ) < 100)] at hc
    exact hc
  have hhimx : ((rassHi (sortPoints pts) : ℤ) : ℚ) ≤
      ((sortPoints pts).getLastD (0, 0)).1 := by
    unfold rassHi
    push_cast
    have hc := Int.floor_le (((sortPoints pts).getLastD (0, 0)).1 / 100)
    rw [le_div_iff (by norm_num : (0:ℚ) < 100)] at hc
    exact hc
  have hgridlow : ∀ z ∈ altGrid (rassLo (sortPoints pts)) (rassHi (sortPoints pts)),
      keyAt (sortPoints pts) 0 ≤ (z : ℚ) := by
    intro z hz
    have hlz := ((mem_altGrid _ _ z hdlo hdhi).mp hz).2.1
    rw [keyAt_zero]
    exact hmnlo.trans (by exact_mod_cast hlz)
  have hgridhigh : ∀ z ∈ altGrid (rassLo (sortPoints pts)) (rassHi (sortPoints pts)),
      (z : ℚ) ≤ keyAt (sortPoints pts) ((sortPoints pts).length - 1) := by
    intro z hz
    have hzh := ((mem_altGrid _ _ z hdlo hdhi).mp hz).2.2
    rw [keyAt_last _ hne]
    exact le_trans (by exact_mod_cast hzh) hhimx
  refine ⟨?_, hmapfst, ?_, ?_, ⟨?_, ?_, ?_⟩, ?_⟩
  · unfold parse_rass
    rw [hp]
  · intro z
    rw [hmapfst]
    exact mem_altGrid _ _ z hdlo hdhi
  · have hchain := altGrid_chain (rassLo (sortPoints pts)) (rassHi (sortPoints pts))
    rw [← hmapfst] at hchain
    exact (List.chain'_map Prod.fst).mp hchain
  · exact (hperm.mem_iff).mp (by
      cases hs : sortPoints pts with
      | nil => exact absurd hs hne
      | cons x t => simp)
  · exact (hperm.mem_iff).mp (getLastD_mem _ (0, 0) hne)
  · intro p hpmem
    have hpm : p ∈ sortPoints pts := (hperm.mem_iff).mpr hpmem
    exact ⟨sorted_headD_le _ hsort p hpm, sorted_le_getLastD _ hsort p hpm⟩
  · intro hnd p hpmem q hq hkeyq
    have hnd' : ((sortPoints pts).map Prod.fst).Nodup :=
      ((hperm.map Prod.fst).nodup_iff).mpr hnd
    have hpm : p ∈ sortPoints pts := (hperm.mem_iff).mpr hpmem
    obtain ⟨⟨k, hk⟩, hget⟩ := List.mem_iff_get.mp hpm
    have hkeyk : keyAt (sortPoints pts) k = (q.1 : ℚ) := by
      rw [keyAt_eq_get _ k hk, hget, hkeyq]
    have := resampleLoop_exact (sortPoints pts) hsort hnd' hlen2' _ 0
      (by omega)
      (fun a ha => by
        have := hgridlow a ha
        rw [keyAt_zero] at this ⊢
        exact this)
      hgridhigh
      (altGrid_pairwise _ _) q hq k hk hkeyk
    rw [this, tempAt_eq_get _ k hk, hget]

/-- Witness for C1 (amended) at a two-point sounding with distinct
altitudes. -/
theorem parse_rass_resample_grid_exact_witness :
    (parse_rass_points exGoodLines = some exGoodPts) ∧
    (parse_rass exGoodLines = some (obsScan exGoodLines, resample exGoodPts) ∧
    (resample exGoodPts).map Prod.fst =
      altGrid (rassLo (sortPoints exGoodPts)) (rassHi (sortPoints exGoodPts)) ∧
    (∀ z : ℤ, z ∈ (resample exGoodPts).map Prod.fst ↔
      100 ∣ z ∧ rassLo (sortPoints exGoodPts) ≤ z ∧
        z ≤ rassHi (sortPoints exGoodPts)) ∧
    List.Chain' (fun p q : ℤ × ℚ => p.1 + 100 = q.1) (resample exGoodPts) ∧
    ((sortPoints exGoodPts).headD (0, 0) ∈ exGoodPts ∧
      (sortPoints exGoodPts).getLastD (0, 0) ∈ exGoodPts ∧
      ∀ p ∈ exGoodPts, ((sortPoints exGoodPts).headD (0, 0)).1 ≤ p.1 ∧
        p.1 ≤ ((sortPoints exGoodPts).getLastD (0, 0)).1) ∧
    ((exGoodPts.map Prod.fst).Nodup →
      ∀ p ∈ exGoodPts, ∀ q ∈ resample exGoodPts, (q.1 : ℚ) = p.1 → q.2 = p.2)) :=
  ⟨by with_unfolding_all decide,
    parse_rass_resample_grid_exact exGoodLines exGoodPts
      (by with_unfolding_all decide)⟩

/-- C1 counterexample: a parsed sounding with two valid points at the same
altitude and different temperatures — the resampled value at that altitude
is the first point's temperature, so it cannot equal "that sample's
temperature" for the other sample, refuting the claim as stated. -/
theorem parse_rass_dup_altitude_cex :
    parse_rass_points exDupLines = some [(0, 10), (0, 20)] ∧
    parse_rass exDupLines = some (none, [(0, 10)]) ∧
    ¬(∀ p ∈ [((0 : ℚ), (10 : ℚ)), ((0 : ℚ), (20 : ℚ))],
        ∀ q ∈ [((0 : ℤ), (10 : ℚ))], (q.1 : ℚ) = p.1 → q.2 = p.2) := by
  with_unfolding_all decide

/-! ### C9: snapshot-history pruning -/

theorem charToNat_inj (a b : Char) (h : a.toNat = b.toNat) : a = b := by
  have hv : a.val = b.val := UInt32.eq_of_val_eq (Fin.ext h)
  exact Char.eq_of_val_eq hv

theorem charListLe_total : ∀ a b : List Char,
    charListLe a b = true ∨ charListLe b a = true := by
  intro a
  induction a with
  | nil => intro b; left; rfl
  | cons x xs ih =>
    intro b
    cases b with
    | nil => right; rfl
    | cons y ys =>
      rw [charListLe, charListLe]
      rcases lt_trichotomy x.toNat y.toNat with h | h | h
      · left; rw [if_pos h]
      · rw [if_neg (by omega), if_neg (by omega), if_neg (by omega), if_neg (by omega)]
        exact ih ys
      · right; rw [if_pos h]

theorem charListLe_trans : ∀ a b c : List Char,
    charListLe a b = true → charListLe b c = true → charListLe a c = true := by
  intro a
  induction a with
  | nil => intro b c _ _; rfl
  | cons x xs ih =>
    intro b c hab hbc
    cases b with
    | nil => rw [charListLe] at hab; cases hab
    | cons y ys =>
      cases c with
      | nil => rw [charListLe] at hbc; cases hbc
      | cons z zs =>
        rw [charListLe] at hab hbc ⊢
        rcases lt_trichotomy x.toNat y.toNat with h1 | h1 | h1 <;>
          rcases lt_trichotomy y.toNat z.toNat with h2 | h2 | h2
        all_goals first
          | (rw [if_pos (by omega)])
          | (rw [if_neg (by omega), if_neg (by omega)]
             rw [if_neg (by omega), if_neg (by omega)] at hab hbc
             exact ih ys zs hab hbc)
          | (exfalso
             rw [if_neg (by omega)] at hab <;> rw [if_pos (by omega)] at hab
             exact Bool.false_ne_true hab)
          | (exfalso
             rw [if_neg (by omega), if_pos (by omega)] at hab
             exact Bool.false_ne_true hab)
          | (exfalso
             rw [if_neg (by omega), if_pos (by omega)] at hbc
             exact Bool.false_ne_true hbc)

theorem charListLe_antisymm : ∀ a b : List Char,
    charListLe a b = true → charListLe b a = true → a = b := by
  intro a
  induction a with
  | nil =>
    intro b _ hba
    cases b with
    | nil => rfl
    | cons y ys => rw [charListLe] at hba; cases hba
  | cons x xs ih =>
    intro b hab hba
    cases b with
    | nil => rw [charListLe] at hab; cases hab
    | cons y ys =>
      rw [charListLe] at hab hba
      rcases lt_trichotomy x.toNat y.toNat with h | h | h
      · exfalso
        rw [if_neg (by omega), if_pos (by omega)] at hba
        exact Bool.false_ne_true hba
      · rw [if_neg (by omega), if_neg (by omega)] at hab hba
        rw [charToNat_inj x y h, ih ys hab hba]
      · exfalso
        rw [if_neg (by omega), if_pos (by omega)] at hab
        exact Bool.false_ne_true hab

theorem charListLt_iff : ∀ a b : List Char,
    charListLt a b = true ↔ (charListLe a b = true ∧ a ≠ b) := by
  intro a
  induction a with
  | nil => intro b; cases b <;> simp [charListLt, charListLe]
  | cons x xs ih =>
    intro b
    cases b with
    | nil => simp [charListLt, charListLe]
    | cons y ys =>
      rw [charListLt, charListLe]
      by_cases h1 : x.toNat < y.toNat
      · rw [if_pos h1, if_pos h1]
        have hne : x ≠ y := by
          intro he
          rw [he] at h1
          omega
        simp [hne]
      · by_cases h2 : y.toNat < x.toNat
        · rw [if_neg h1, if_pos h2, if_neg h1, if_pos h2]
          simp
        · rw [if_neg h1, if_neg h2, if_neg h1, if_neg h2]
          have hxy : x = y := charToNat_inj x y (by omega)
          subst hxy
          rw [ih ys]
          simp

theorem string_toList_inj {a b : String} (h : a.toList = b.toList) : a = b := by
  cases a
  cases b
  simp only [String.toList] at h
  rw [h]

theorem pyStrLt_iff (a b : String) :
    pyStrLt a b = true ↔ (pyStrLe a b = true ∧ a ≠ b) := by
  unfold pyStrLt pyStrLe
  rw [charListLt_iff]
  constructor
  · rintro ⟨h1, h2⟩
    exact ⟨h1, fun he => h2 (by rw [he])⟩
  · rintro ⟨h1, h2⟩
    exact ⟨h1, fun he => h2 (string_toList_inj he)⟩

instance : IsTotal String (fun a b : String => pyStrLe a b = true) :=
  ⟨fun a b => charListLe_total a.toList b.toList⟩

instance : IsTrans String (fun a b : String => pyStrLe a b = true) :=
  ⟨fun a b c hab hbc => charListLe_trans a.toList b.toList c.toList hab hbc⟩

theorem lookup_upsert_self (m : List (String × Snap)) (k : String) (v : Snap) :
    lookupStr k (upsert m k v) = some v := by
  induction m with
  | nil => simp [upsert, lookupStr]
  | cons p rest ih =>
    obtain ⟨k', v'⟩ := p
    by_cases h : k' = k
    · simp [upsert, h, lookupStr]
    · simp [upsert, h, lookupStr, ih]

theorem lookup_upsert_other (m : List (String × Snap)) (k k' : String) (v : Snap)
    (h : k' ≠ k) : lookupStr k (upsert m k' v) = lookupStr k m := by
  induction m with
  | nil => simp [upsert, lookupStr, h]
  | cons p rest ih =>
    obtain ⟨k₀, v₀⟩ := p
    by_cases h0 : k₀ = k'
    · subst h0
      simp [upsert, lookupStr, h]
    · simp only [upsert, if_neg h0, lookupStr]
      by_cases h1 : k₀ = k
      · rw [if_pos h1, if_pos h1]
      · rw [if_neg h1, if_neg h1, ih]

theorem mem_keys_upsert (m : List (String × Snap)) (k a : String) (v : Snap) :
    a ∈ (upsert m k v).map Prod.fst ↔ a = k ∨ a ∈ m.map Prod.fst := by
  induction m with
  | nil => simp [upsert]
  | cons p rest ih =>
    obtain ⟨k', v'⟩ := p
    by_cases h : k' = k
    · subst h
      simp [upsert]
    · simp [upsert, h, ih]
      tauto

theorem nodup_keys_upsert (m : List (String × Snap)) (k : String) (v : Snap)
    (h : (m.map Prod.fst).Nodup) : ((upsert m k v).map Prod.fst).Nodup := by
  induction m with
  | nil => simp [upsert]
  | cons p rest ih =>
    obtain ⟨k', v'⟩ := p
    simp only [List.map_cons, List.nodup_cons] at h
    by_cases hk : k' = k
    · subst hk
      simpa [upsert] using h
    · simp only [upsert, if_neg hk, List.map_cons, List.nodup_cons]
      refine ⟨fun hmem => ?_, ih h.2⟩
      rw [mem_keys_upsert] at hmem
      rcases hmem with he | hmem
      · exact hk he
      · exact h.1 hmem

theorem lookup_isSome_of_mem_keys (k : String) :
    ∀ m : List (String × Snap), k ∈ m.map Prod.fst → ∃ v, lookupStr k m = some v := by
  intro m
  induction m with
  | nil => intro h; simp at h
  | cons p rest ih =>
    obtain ⟨k', v'⟩ := p
    intro h
    by_cases he : k' = k
    · exact ⟨v', by simp [lookupStr, he]⟩
    · simp only [List.map_cons, List.mem_cons] at h
      rcases h with h | h
      · exact absurd h.symm he
      · obtain ⟨v, hv⟩ := ih h
        exact ⟨v, by simp [lookupStr, he, hv]⟩

theorem mem_keys_of_lookup_some (k : String) (v : Snap) :
    ∀ m : List (String × Snap), lookupStr k m = some v → k ∈ m.map Prod.fst := by
  intro m
  induction m with
  | nil => intro h; simp [lookupStr] at h
  | cons p rest ih =>
    obtain ⟨k', v'⟩ := p
    intro h
    by_cases he : k' = k
    · simp [he]
    · rw [lookupStr, if_neg he] at h
      simp [ih h]

theorem pruneStep_eq (now : ℚ) (m : List (String × Snap)) (s : Snap) :
    pruneStep now m s =
      match survives now s with
      | none => m
      | some k => upsert m k { s with run_at := some k } := by
  cases hr : s.run_at with
  | none => simp [pruneStep, survives, hr]
  | some raw =>
    cases hp : parse_iso_utc (some raw) with
    | none => simp [pruneStep, survives, hr, hp]
    | some dt =>
      by_cases h : ((toEpoch dt : ℚ)) < now - (HISTORY_RETENTION_HOURS : ℚ) * 3600
      · simp [pruneStep, survives, hr, hp, h]
      · simp [pruneStep, survives, hr, hp, h]

theorem mem_of_getLast_opt {α : Type} : ∀ {l : List α} {a : α}, l.getLast? = some a → a ∈ l := by
  intro l
  induction l with
  | nil => intro a h; simp at h
  | cons x xs ih =>
    intro a h
    cases xs with
    | nil =>
      simp only [List.getLast?_singleton, Option.some.injEq] at h
      simp [h]
    | cons y ys =>
      rw [List.getLast?_cons_cons] at h
      exact List.mem_cons_of_mem x (ih h)

theorem pruneStep_none (now : ℚ) (m : List (String × Snap)) (s : Snap)
    (h : survives now s = none) : pruneStep now m s = m := by
  rw [pruneStep_eq, h]

theorem pruneStep_some (now : ℚ) (m : List (String × Snap)) (s : Snap) (k : String)
    (h : survives now s = some k) :
    pruneStep now m s = upsert m k { s with run_at := some k } := by
  rw [pruneStep_eq, h]

theorem foldl_pruneStep_lookup (now : ℚ) (k : String) :
    ∀ (snaps : List Snap) (m : List (String × Snap)),
      lookupStr k (snaps.foldl (pruneStep now) m) =
        match (snaps.filter (fun s => decide (survives now s = some k))).getLast? with
        | none => lookupStr k m
        | some s0 => some { s0 with run_at := some k } := by
  intro snaps
  induction snaps with
  | nil => intro m; rfl
  | cons s rest ih =>
    intro m
    rw [List.foldl_cons, List.filter_cons]
    cases hs : survives now s with
    | none =>
      rw [pruneStep_none now m s hs]
      have hd : (decide ((none : Option String) = some k)) = false := by simp
      rw [hd]
      simp only [Bool.false_eq_true, if_false]
      exact ih m
    | some k' =>
      rw [pruneStep_some now m s k' hs]
      by_cases hk : k' = k
      · subst hk
        have hd : (decide ((some k' : Option String) = some k')) = true := by simp
        rw [hd, if_pos rfl]
        rw [ih (upsert m k' { s with run_at := some k' })]
        cases hl : rest.filter (fun s => decide (survives now s = some k')) with
        | nil =>
          simp only [List.getLast?_nil, List.getLast?_singleton]
          rw [lookup_upsert_self]
        | cons t ts =>
          rw [List.getLast?_cons_cons]
          cases hgl : (t :: ts).getLast? with
          | none => simp at hgl
          | some s0 => rfl
      · have hd : (decide ((some k' : Option String) = some k)) = false := by simp [hk]
        rw [hd]
        simp only [Bool.false_eq_true, if_false]
        rw [ih (upsert m k' { s with run_at := some k' })]
        cases rest.filter (fun s => decide (survives now s = some k)) |>.getLast? with
        | none => exact lookup_upsert_other m k k' { s with run_at := some k' } hk
        | some s0 => rfl

theorem foldl_pruneStep_nodup (now : ℚ) :
    ∀ (snaps : List Snap) (m : List (String × Snap)),
      (m.map Prod.fst).Nodup → ((snaps.foldl (pruneStep now) m).map Prod.fst).Nodup := by
  intro snaps
  induction snaps with
  | nil => intro m h; exact h
  | cons s rest ih =>
    intro m h
    rw [List.foldl_cons]
    cases hs : survives now s with
    | none =>
      rw [pruneStep_none now m s hs]
      exact ih m h
    | some k =>
      rw [pruneStep_some now m s k hs]
      exact ih _ (nodup_keys_upsert m k _ h)

theorem prune_eq (snaps : List Snap) (now : ℚ) :
    prune_history_snapshots snaps now =
      (keysOf snaps now).map (fun k => (lookupStr k (dedupedOf snaps now)).getD {}) := rfl

theorem keysOf_nodup (snaps : List Snap) (now : ℚ) : (keysOf snaps now).Nodup :=
  (List.perm_insertionSort _ _).nodup_iff.mpr
    (foldl_pruneStep_nodup now snaps [] (by simp))

theorem mem_keysOf (snaps : List Snap) (now : ℚ) (k : String) :
    k ∈ keysOf snaps now ↔ k ∈ (dedupedOf snaps now).map Prod.fst :=
  (List.perm_insertionSort _ _).mem_iff

theorem keysOf_sorted (snaps : List Snap) (now : ℚ) :
    List.Pairwise (fun a b : String => pyStrLe a b = true) (keysOf snaps now) :=
  List.sorted_insertionSort _ _

theorem dedupedOf_lookup (snaps : List Snap) (now : ℚ) (k : String) :
    lookupStr k (dedupedOf snaps now) =
      match (snaps.filter (fun s => decide (survives now s = some k))).getLast? with
      | none => none
      | some s0 => some { s0 with run_at := some k } := by
  rw [dedupedOf, foldl_pruneStep_lookup]
  cases (snaps.filter (fun s => decide (survives now s = some k))).getLast? with
  | none => rfl
  | some s0 => rfl

theorem keysOf_entry (snaps : List Snap) (now : ℚ) (k : String)
    (hk : k ∈ keysOf snaps now) :
    ∃ s0, (snaps.filter (fun s => decide (survives now s = some k))).getLast? = some s0 ∧
      (lookupStr k (dedupedOf snaps now)).getD {} = { s0 with run_at := some k } := by
  rw [mem_keysOf] at hk
  obtain ⟨v, hv⟩ := lookup_isSome_of_mem_keys k (dedupedOf snaps now) hk
  have hDL := dedupedOf_lookup snaps now k
  rw [hv] at hDL
  cases hl : (snaps.filter (fun s => decide (survives now s = some k))).getLast? with
  | none =>
    rw [hl] at hDL
    exact absurd hDL (by simp)
  | some s0 =>
    rw [hl] at hDL
    refine ⟨s0, rfl, ?_⟩
    rw [hv, hDL]
    rfl

theorem keysOf_of_getLast (snaps : List Snap) (now : ℚ) (k : String) (s0 : Snap)
    (h : (snaps.filter (fun s => decide (survives now s = some k))).getLast? = some s0) :
    k ∈ keysOf snaps now := by
  rw [mem_keysOf]
  apply mem_keys_of_lookup_some k { s0 with run_at := some k }
  rw [dedupedOf_lookup, h]

/-- **C9.** `prune_history_snapshots` keeps, among all input snapshots whose
run timestamps normalize to the same string, exactly one — the last in input
order, with its `run_at` replaced by the normalized timestamp; it drops every
snapshot whose `run_at` is missing or unparseable or whose run time is more
than 48 hours before `now` (first conjunct: the `survives` guard is exactly
that condition); every retained row originates from a surviving input
snapshot; and the output is strictly ordered by the normalized run-timestamp
strings, i.e. by run time (the `%Y-%m-%dT%H:%M:%SZ` format is
fixed-width, so lexicographic order on the keys is chronological order). -/
theorem prune_history_snapshots_spec (snaps : List Snap) (now : ℚ) :
    (∀ (s : Snap) (k : String), survives now s = some k ↔
        ∃ dt, parse_iso_utc s.run_at = some dt ∧
          ¬ ((toEpoch dt : ℚ) < now - (HISTORY_RETENTION_HOURS : ℚ) * 3600) ∧
          k = formatUTC dt)
    ∧ (∀ k : String,
        (prune_history_snapshots snaps now).filter
            (fun r => decide (r.run_at = some k)) =
          match (snaps.filter (fun s => decide (survives now s = some k))).getLast? with
          | none => []
          | some s0 => [{ s0 with run_at := some k }])
    ∧ (∀ r ∈ prune_history_snapshots snaps now,
        ∃ s ∈ snaps, ∃ k, survives now s = some k ∧ r = { s with run_at := some k })
    ∧ List.Pairwise
        (fun a b : Snap => pyStrLt (a.run_at.getD "") (b.run_at.getD "") = true)
        (prune_history_snapshots snaps now) := by
  refine ⟨?_, ?_, ?_, ?_⟩
  · intro s k
    cases hr : s.run_at with
    | none => simp [survives, hr, parse_iso_utc]
    | some raw =>
      simp only [survives, hr]
      cases hp : parse_iso_utc (some raw) with
      | none => simp [hp]
      | some dt =>
        by_cases hcut : ((toEpoch dt : ℚ)) < now - (HISTORY_RETENTION_HOURS : ℚ) * 3600
        · simp [hp, hcut]
          intro h1 h2
          linarith
        · simp [hp, hcut, eq_comm]
          intro h1
          linarith
  · intro k
    rw [prune_eq, List.filter_map]
    have hcong :
        (keysOf snaps now).filter
            ((fun r => decide (r.run_at = some k)) ∘
              fun k' => (lookupStr k' (dedupedOf snaps now)).getD {}) =
          (keysOf snaps now).filter (fun k' => decide (k' = k)) := by
      apply List.filter_congr
      intro k' hk'
      obtain ⟨s0, _, he⟩ := keysOf_entry snaps now k' hk'
      simp [Function.comp, he]
    rw [hcong]
    by_cases hk : k ∈ keysOf snaps now
    · obtain ⟨s0, hl, he⟩ := keysOf_entry snaps now k hk
      rw [filter_eq_singleton_of_nodup k (keysOf snaps now) (keysOf_nodup snaps now) hk]
      rw [hl, List.map_singleton, he]
    · have hnone :
          (snaps.filter (fun s => decide (survives now s = some k))).getLast? = none := by
        cases hl : (snaps.filter (fun s => decide (survives now s = some k))).getLast? with
        | none => rfl
        | some s0 => exact absurd (keysOf_of_getLast snaps now k s0 hl) hk
      rw [hnone]
      have hfe : (keysOf snaps now).filter (fun k' => decide (k' = k)) = [] := by
        rw [List.filter_eq_nil_iff]
        intro a ha
        simp only [decide_eq_true_eq]
        intro he
        exact hk (he ▸ ha)
      rw [hfe, List.map_nil]
  · intro r hr
    rw [prune_eq] at hr
    obtain ⟨k, hkmem, hfk⟩ := List.mem_map.mp hr
    obtain ⟨s0, hl, he⟩ := keysOf_entry snaps now k hkmem
    have hs0 : s0 ∈ snaps.filter (fun s => decide (survives now s = some k)) :=
      mem_of_getLast_opt hl
    rw [List.mem_filter] at hs0
    refine ⟨s0, hs0.1, k, of_decide_eq_true hs0.2, ?_⟩
    rw [← hfk, he]
  · rw [prune_eq, List.pairwise_map]
    have hnd : (keysOf snaps now).Nodup := keysOf_nodup snaps now
    have hlt : List.Pairwise (fun a b : String => pyStrLt a b = true) (keysOf snaps now) :=
      ((keysOf_sorted snaps now).and hnd).imp
        (fun hab => (pyStrLt_iff _ _).mpr hab)
    refine hlt.imp_of_mem ?_
    intro a b ha hb hab
    obtain ⟨sa, _, hea⟩ := keysOf_entry snaps now a ha
    obtain ⟨sb, _, heb⟩ := keysOf_entry snaps now b hb
    rw [hea, heb]
    simpa using hab

/-- Witness for C9: on a concrete history with two snapshots normalizing to
the same run timestamp (one written `+00:00`, one written `Z`), one missing,
one unparseable, and one beyond the 48 h window, the per-key filter keeps
exactly the later duplicate with its timestamp normalized. -/
theorem prune_history_snapshots_spec_witness :
    (prune_history_snapshots exHistSnaps exHistNow).filter
        (fun r => decide (r.run_at = some "2024-01-01T10:00:00Z")) =
      [{ run_at := some "2024-01-01T10:00:00Z", payload := 2 }] := by
  have h := (prune_history_snapshots_spec exHistSnaps exHistNow).2.1 "2024-01-01T10:00:00Z"
  rw [h]
  with_unfolding_all decide
